import Mathlib

/-!
Shallow embedding of `src/world.rs` of the chargrid roguelike tutorial:
the entity/component data model, the layered spatial index, the inventory
container and the rule-engine operations of the `World` type.

Conventions:
* `u32`/`usize` values are modelled as `Nat`; `saturating_sub` is `Nat`
  truncated subtraction.
* Fallible Rust paths that panic (`unwrap`, `expect`, explicit fatal
  errors) are modelled as `Option`-returning functions producing `none`;
  a `some` result is a run that did not halt.
* Component tables (`entity_table::ComponentTable`) and the entity-to-
  location side of the spatial index are association lists keyed by the
  entity identifier, iterated in insertion order.
-/

/-- Entity identifiers. The generation tags of `entity_table` are not
modelled: the allocator below never reuses an identifier. -/
abbrev Entity := Nat

structure Coord where
  x : Int
  y : Int
deriving DecidableEq

instance : Add Coord := ⟨fun a b => ⟨a.x + b.x, a.y + b.y⟩⟩

instance : Sub Coord := ⟨fun a b => ⟨a.x - b.x, a.y - b.y⟩⟩

structure Size where
  width : Nat
  height : Nat
deriving DecidableEq

/-- `Coord::is_valid` of the `coord_2d` crate: strictly inside the grid. -/
def Coord.is_valid (c : Coord) (s : Size) : Bool :=
  decide (0 ≤ c.x ∧ c.x < (s.width : Int) ∧ 0 ≤ c.y ∧ c.y < (s.height : Int))

inductive CardinalDirection
  | north
  | east
  | south
  | west
deriving DecidableEq

/-- `CardinalDirection::coord` of the `direction` crate (y grows south). -/
def CardinalDirection.coord : CardinalDirection → Coord
  | .north => ⟨0, -1⟩
  | .east => ⟨1, 0⟩
  | .south => ⟨0, 1⟩
  | .west => ⟨-1, 0⟩

/-- Modelled from the spec: the trajectory generator (`line_2d`'s cardinal
step iterator, an external collaborator not part of this repository)
computes, once at spawn time, a finite sequence of cardinal step
directions from the delta `target - origin`, one step consumed per world
tick; the number of cardinal steps of the grid distance is
`|dx| + |dy|`. -/
def cardinalSteps (d : Coord) : List CardinalDirection :=
  List.replicate d.x.natAbs (if 0 ≤ d.x then CardinalDirection.east else CardinalDirection.west)
    ++ List.replicate d.y.natAbs (if 0 ≤ d.y then CardinalDirection.south else CardinalDirection.north)

inductive ItemUsage
  | Immediate
  | Aim
deriving DecidableEq

inductive ProjectileType
  | Fireball
deriving DecidableEq

inductive ItemType
  | HealthPotion
  | FireballScroll
deriving DecidableEq

structure HitPoints where
  current : Nat
  max : Nat
deriving DecidableEq

def HitPoints.new_full (m : Nat) : HitPoints := ⟨m, m⟩

inductive NpcType
  | Orc
  | Troll
deriving DecidableEq

inductive Tile
  | Player
  | PlayerCorpse
  | Floor
  | Wall
  | Npc (n : NpcType)
  | NpcCorpse (n : NpcType)
  | Item (i : ItemType)
  | Projectile (p : ProjectileType)
deriving DecidableEq

inductive Layer
  | Floor
  | Character
  | Object
  | Feature
  | Projectile
deriving DecidableEq

structure Location where
  coord : Coord
  layer : Option Layer
deriving DecidableEq

inductive LogMessage
  | PlayerAttacksNpc (n : NpcType)
  | PlayerKillsNpc (n : NpcType)
  | NpcAttacksPlayer (n : NpcType)
  | NpcKillsPlayer (n : NpcType)
  | PlayerGets (i : ItemType)
  | PlayerDrops (i : ItemType)
  | PlayerInventoryIsFull
  | NoItemUnderPlayer
  | NoItemInInventorySlot
  | NoSpaceToDropItem
  | PlayerHeals
  | PlayerLaunchesProjectile (p : ProjectileType)
  | NpcDies (n : NpcType)
deriving DecidableEq

/-- Terrain tile variants consumed by `populate` (external collaborator). -/
inductive TerrainTile
  | Player
  | Floor
  | Wall
  | Npc (n : NpcType)
  | Item (i : ItemType)
deriving DecidableEq

/-- Association lists keyed by entity identifier: the model of
`entity_table::ComponentTable` and of the entity-to-location map of the
spatial index. -/
abbrev AL (V : Type) := List (Entity × V)

def alFind {V : Type} (l : AL V) (k : Entity) : Option V :=
  (l.find? (fun p => p.1 == k)).map Prod.snd

def alInsert {V : Type} : AL V → Entity → V → AL V
  | [], k, v => [(k, v)]
  | p :: t, k, v => if p.1 = k then (k, v) :: t else p :: alInsert t k v

def alErase {V : Type} : AL V → Entity → AL V
  | [], _ => []
  | p :: t, k => if p.1 = k then alErase t k else p :: alErase t k

def alKeys {V : Type} (l : AL V) : List Entity :=
  l.map Prod.fst

/-- `Inventory`: fixed-capacity slot container. -/
structure Inventory where
  slots : List (Option Entity)
deriving DecidableEq

structure InventoryIsFull
deriving DecidableEq

structure InventorySlotIsEmpty
deriving DecidableEq

def Inventory.new (capacity : Nat) : Inventory :=
  ⟨List.replicate capacity none⟩

/-- Helper of `Inventory.insert`: put the item in the first empty slot. -/
def fillFirstFree : List (Option Entity) → Entity → Option (List (Option Entity))
  | [], _ => none
  | none :: t, e => some (some e :: t)
  | some x :: t, e => (fillFirstFree t e).map (fun t2 => some x :: t2)

def Inventory.insert (inv : Inventory) (item : Entity) : Except InventoryIsFull Inventory :=
  match fillFirstFree inv.slots item with
  | some s => .ok ⟨s⟩
  | none => .error ⟨⟩

def Inventory.remove (inv : Inventory) (index : Nat) : Except InventorySlotIsEmpty (Entity × Inventory) :=
  match inv.slots[index]? with
  | some (some e) => .ok (e, ⟨inv.slots.set index none⟩)
  | _ => .error ⟨⟩

def Inventory.get (inv : Inventory) (index : Nat) : Except InventorySlotIsEmpty Entity :=
  match inv.slots[index]? with
  | some (some e) => .ok e
  | _ => .error ⟨⟩

/-- Predicate selecting the entries of the location map that occupy the
layer `l` of the cell `c`. -/
def cellPred (c : Coord) (l : Layer) : Entity × Location → Bool :=
  fun q => decide (q.2.coord = c ∧ q.2.layer = some l)

/-- Modelled from the spec: the `spatial_table` crate (an external
collaborator not part of this repository) — a layered occupancy grid
mapping `(coordinate, layer)` to at most one entity plus the inverse
entity-to-location map; `update` places or relocates an entity and fails,
returning the occupying entity, if another entity already occupies the
destination cell of that layer. -/
structure SpatialTable where
  grid_size : Size
  locs : AL Location
deriving DecidableEq

def SpatialTable.new (s : Size) : SpatialTable := ⟨s, []⟩

/-- The occupancy query: every entity occupying layer `l` of cell `c`. -/
def SpatialTable.occupants (st : SpatialTable) (c : Coord) (l : Layer) : List Entity :=
  (st.locs.filter (cellPred c l)).map Prod.fst

def SpatialTable.occupant (st : SpatialTable) (c : Coord) (l : Layer) : Option Entity :=
  (st.occupants c l).head?

def SpatialTable.coord_of (st : SpatialTable) (e : Entity) : Option Coord :=
  (alFind st.locs e).map Location.coord

def SpatialTable.layer_of (st : SpatialTable) (e : Entity) : Option Layer :=
  (alFind st.locs e).bind Location.layer

def SpatialTable.update (st : SpatialTable) (e : Entity) (loc : Location) : Except Entity SpatialTable :=
  match loc.layer with
  | none => .ok { st with locs := alInsert st.locs e loc }
  | some l =>
    match st.occupant loc.coord l with
    | none => .ok { st with locs := alInsert st.locs e loc }
    | some e2 =>
      if e2 = e then .ok { st with locs := alInsert st.locs e loc } else .error e2

/-- `update_coord`: move within the current layer; `none` models the
fatal case of an entity with no recorded location. -/
def SpatialTable.update_coord (st : SpatialTable) (e : Entity) (c : Coord) : Option (Except Entity SpatialTable) :=
  (alFind st.locs e).map (fun loc => st.update e { coord := c, layer := loc.layer })

/-- `update_layer`: change layer at the current coordinate. -/
def SpatialTable.update_layer (st : SpatialTable) (e : Entity) (l : Layer) : Option (Except Entity SpatialTable) :=
  (alFind st.locs e).map (fun loc => st.update e { coord := loc.coord, layer := some l })

def SpatialTable.remove (st : SpatialTable) (e : Entity) : SpatialTable :=
  { st with locs := alErase st.locs e }

/-- The per-layer occupants of one cell. -/
structure Layers where
  floor : Option Entity
  character : Option Entity
  object : Option Entity
  feature : Option Entity
  projectile : Option Entity
deriving DecidableEq

def SpatialTable.layers_at_checked (st : SpatialTable) (c : Coord) : Layers :=
  { floor := st.occupant c Layer.Floor
    character := st.occupant c Layer.Character
    object := st.occupant c Layer.Object
    feature := st.occupant c Layer.Feature
    projectile := st.occupant c Layer.Projectile }

def SpatialTable.layers_at (st : SpatialTable) (c : Coord) : Option Layers :=
  if c.is_valid st.grid_size then some (st.layers_at_checked c) else none

/-- The fixed schema of typed attribute tables. -/
structure Components where
  tile : AL Tile
  npc_type : AL NpcType
  hit_points : AL HitPoints
  item : AL ItemType
  inventory : AL Inventory
  trajectory : AL (List CardinalDirection)
  projectile : AL ProjectileType
deriving DecidableEq

def Components.empty : Components := ⟨[], [], [], [], [], [], []⟩

/-- `Components::remove_entity`: clear the entity from every table. -/
def Components.remove_entity (cs : Components) (e : Entity) : Components :=
  ⟨alErase cs.tile e, alErase cs.npc_type e, alErase cs.hit_points e, alErase cs.item e,
    alErase cs.inventory e, alErase cs.trajectory e, alErase cs.projectile e⟩

structure World where
  entity_allocator : Nat
  components : Components
  spatial_table : SpatialTable
deriving DecidableEq

def World.new (size : Size) : World :=
  ⟨0, Components.empty, SpatialTable.new size⟩

def World.remove_entity (w : World) (e : Entity) : World :=
  { w with
    components := w.components.remove_entity e
    spatial_table := w.spatial_table.remove e }

def World.spawn_wall (w : World) (c : Coord) : Option World :=
  let e := w.entity_allocator
  match w.spatial_table.update e { coord := c, layer := some Layer.Feature } with
  | .error _ => none
  | .ok st =>
    some { w with
      entity_allocator := e + 1
      spatial_table := st
      components := { w.components with tile := alInsert w.components.tile e Tile.Wall } }

def World.spawn_floor (w : World) (c : Coord) : Option World :=
  let e := w.entity_allocator
  match w.spatial_table.update e { coord := c, layer := some Layer.Floor } with
  | .error _ => none
  | .ok st =>
    some { w with
      entity_allocator := e + 1
      spatial_table := st
      components := { w.components with tile := alInsert w.components.tile e Tile.Floor } }

def World.spawn_player (w : World) (c : Coord) : Option (World × Entity) :=
  let e := w.entity_allocator
  match w.spatial_table.update e { coord := c, layer := some Layer.Character } with
  | .error _ => none
  | .ok st =>
    some ({ w with
      entity_allocator := e + 1
      spatial_table := st
      components := { w.components with
        tile := alInsert w.components.tile e Tile.Player
        hit_points := alInsert w.components.hit_points e (HitPoints.new_full 20)
        inventory := alInsert w.components.inventory e (Inventory.new 10) } }, e)

def World.spawn_npc (w : World) (c : Coord) (npc_type : NpcType) : Option (World × Entity) :=
  let e := w.entity_allocator
  match w.spatial_table.update e { coord := c, layer := some Layer.Character } with
  | .error _ => none
  | .ok st =>
    let hit_points := match npc_type with
      | NpcType.Orc => HitPoints.new_full 2
      | NpcType.Troll => HitPoints.new_full 6
    some ({ w with
      entity_allocator := e + 1
      spatial_table := st
      components := { w.components with
        tile := alInsert w.components.tile e (Tile.Npc npc_type)
        npc_type := alInsert w.components.npc_type e npc_type
        hit_points := alInsert w.components.hit_points e hit_points } }, e)

def World.spawn_item (w : World) (c : Coord) (item_type : ItemType) : Option World :=
  let e := w.entity_allocator
  match w.spatial_table.update e { coord := c, layer := some Layer.Object } with
  | .error _ => none
  | .ok st =>
    some { w with
      entity_allocator := e + 1
      spatial_table := st
      components := { w.components with
        tile := alInsert w.components.tile e (Tile.Item item_type)
        item := alInsert w.components.item e item_type } }

def World.spawn_projectile (w : World) (from_ : Coord) (to_ : Coord) (projectile_type : ProjectileType) : Option World :=
  let e := w.entity_allocator
  match w.spatial_table.update e { coord := from_, layer := some Layer.Projectile } with
  | .error _ => none
  | .ok st =>
    some { w with
      entity_allocator := e + 1
      spatial_table := st
      components := { w.components with
        tile := alInsert w.components.tile e (Tile.Projectile projectile_type)
        projectile := alInsert w.components.projectile e projectile_type
        trajectory := alInsert w.components.trajectory e (cardinalSteps (to_ - from_)) } }

/-- `World::populate`, modelled over an explicit terrain description: the
real function obtains it from the external dungeon generator and also
fills an externally-owned AI-state table, neither of which belongs to
this core (spec §6). Spawn order per cell follows the source. -/
def World.populate (w : World) : List (Coord × TerrainTile) → Option World
  | [] => some w
  | (c, t) :: rest =>
    match (match t with
      | TerrainTile.Player => (w.spawn_floor c).bind (fun w1 => (w1.spawn_player c).map Prod.fst)
      | TerrainTile.Floor => w.spawn_floor c
      | TerrainTile.Wall => (w.spawn_floor c).bind (fun w1 => w1.spawn_wall c)
      | TerrainTile.Npc n => (w.spawn_npc c n).bind (fun p => p.1.spawn_floor c)
      | TerrainTile.Item i => (w.spawn_item c i).bind (fun w1 => w1.spawn_floor c)) with
    | none => none
    | some w' => w'.populate rest

def write_combat_log_messages (attacker_is_player : Bool) (victim_dies : Bool) (npc_type : NpcType)
    (message_log : List LogMessage) : List LogMessage :=
  if attacker_is_player then
    if victim_dies then message_log ++ [LogMessage.PlayerKillsNpc npc_type]
    else message_log ++ [LogMessage.PlayerAttacksNpc npc_type]
  else
    if victim_dies then message_log ++ [LogMessage.NpcKillsPlayer npc_type]
    else message_log ++ [LogMessage.NpcAttacksPlayer npc_type]

/-- `World::character_die`. `none` models the fatal paths: a dying entity
with no location, a retried corpse placement that still fails, or a tile
that is neither `Player` nor `Npc`. -/
def World.character_die (w : World) (entity : Entity) : Option World :=
  match (match w.spatial_table.update_layer entity Layer.Object with
    | none => none
    | some (.ok st) => some { w with spatial_table := st }
    | some (.error occupied_by_entity) =>
      -- A character dying on a cell with an object destroys the object
      -- and retries the corpse placement.
      let w2 := w.remove_entity occupied_by_entity
      match w2.spatial_table.update_layer entity Layer.Object with
      | some (.ok st) => some { w2 with spatial_table := st }
      | _ => none) with
  | none => none
  | some w3 =>
    match alFind w3.components.tile entity with
    | some Tile.Player =>
      some { w3 with components := { w3.components with
        tile := alInsert w3.components.tile entity Tile.PlayerCorpse } }
    | some (Tile.Npc npc_type) =>
      some { w3 with components := { w3.components with
        tile := alInsert w3.components.tile entity (Tile.NpcCorpse npc_type) } }
    | _ => none

/-- `World::character_damage`; the returned flag is the `VictimDies`
marker. -/
def World.character_damage (w : World) (victim : Entity) (damage : Nat) : Option (World × Bool) :=
  match alFind w.components.hit_points victim with
  | none => some (w, false)
  | some hp =>
    let hp2 : HitPoints := ⟨hp.current - damage, hp.max⟩
    let w1 : World := { w with components := { w.components with
      hit_points := alInsert w.components.hit_points victim hp2 } }
    if hp2.current = 0 then
      match w1.character_die victim with
      | none => none
      | some w2 => some (w2, true)
    else
      some (w1, false)

def World.character_bump_attack (w : World) (victim : Entity) : Option (World × Bool) :=
  w.character_damage victim 1

def World.maybe_move_character (w : World) (character_entity : Entity) (direction : CardinalDirection)
    (message_log : List LogMessage) : Option (World × List LogMessage) :=
  match w.spatial_table.coord_of character_entity with
  | none => none
  | some character_coord =>
    let new_character_coord := character_coord + direction.coord
    if new_character_coord.is_valid w.spatial_table.grid_size then
      let dest_layers := w.spatial_table.layers_at_checked new_character_coord
      match dest_layers.character with
      | some dest_character_entity =>
        let character_is_npc := alFind w.components.npc_type character_entity
        let dest_character_is_npc := alFind w.components.npc_type dest_character_entity
        if character_is_npc.isSome != dest_character_is_npc.isSome then
          match w.character_bump_attack dest_character_entity with
          | none => none
          | some (w2, victim_dies) =>
            match (match character_is_npc with
              | some n => some n
              | none => dest_character_is_npc) with
            | none => none
            | some npc_type =>
              some (w2, write_combat_log_messages character_is_npc.isNone victim_dies npc_type message_log)
        else
          some (w, message_log)
      | none =>
        if dest_layers.feature.isNone then
          match w.spatial_table.update_coord character_entity new_character_coord with
          | some (.ok st) => some ({ w with spatial_table := st }, message_log)
          | _ => none
        else
          some (w, message_log)
    else
      some (w, message_log)

/-- `World::maybe_get_item`; the flag is the `Result<(), ()>`. -/
def World.maybe_get_item (w : World) (character : Entity)
    (message_log : List LogMessage) : Option (World × List LogMessage × Bool) :=
  match w.spatial_table.coord_of character with
  | none => none
  | some coord =>
    match (w.spatial_table.layers_at_checked coord).object with
    | some object_entity =>
      match alFind w.components.item object_entity with
      | some item_type =>
        match alFind w.components.inventory character with
        | none => none
        | some inventory =>
          match inventory.insert object_entity with
          | .ok inv2 =>
            some ({ w with
              components := { w.components with
                inventory := alInsert w.components.inventory character inv2 }
              spatial_table := w.spatial_table.remove object_entity },
              message_log ++ [LogMessage.PlayerGets item_type], true)
          | .error _ =>
            some (w, message_log ++ [LogMessage.PlayerInventoryIsFull], false)
      | none => some (w, message_log ++ [LogMessage.NoItemUnderPlayer], false)
    | none => some (w, message_log ++ [LogMessage.NoItemUnderPlayer], false)

/-- `World::maybe_use_item`; the result field is `Result<ItemUsage, ()>`
(`none` in the triple is the `Err` case). -/
def World.maybe_use_item (w : World) (character : Entity) (inventory_index : Nat)
    (message_log : List LogMessage) : Option (World × List LogMessage × Option ItemUsage) :=
  match alFind w.components.inventory character with
  | none => none
  | some inventory =>
    match inventory.get inventory_index with
    | .error _ => some (w, message_log ++ [LogMessage.NoItemInInventorySlot], none)
    | .ok item =>
      match alFind w.components.item item with
      | none => none
      | some item_type =>
        match item_type with
        | ItemType.HealthPotion =>
          match alFind w.components.hit_points character with
          | none => none
          | some hit_points =>
            let hp2 : HitPoints := ⟨min hit_points.max (hit_points.current + 5), hit_points.max⟩
            match inventory.remove inventory_index with
            | .error _ => none
            | .ok (_, inv2) =>
              some ({ w with components := { w.components with
                  hit_points := alInsert w.components.hit_points character hp2
                  inventory := alInsert w.components.inventory character inv2 } },
                message_log ++ [LogMessage.PlayerHeals], some ItemUsage.Immediate)
        | ItemType.FireballScroll => some (w, message_log, some ItemUsage.Aim)

/-- `World::maybe_use_item_aim`; the flag is the `Result<(), ()>`. Note
that the self-target rejection precedes every other step and that the
slot removal is unwrapped (an empty slot is fatal here). -/
def World.maybe_use_item_aim (w : World) (character : Entity) (inventory_index : Nat) (target : Coord)
    (message_log : List LogMessage) : Option (World × List LogMessage × Bool) :=
  match w.spatial_table.coord_of character with
  | none => none
  | some character_coord =>
    if character_coord = target then
      some (w, message_log, false)
    else
      match alFind w.components.inventory character with
      | none => none
      | some inventory =>
        match inventory.remove inventory_index with
        | .error _ => none
        | .ok (item_entity, inv2) =>
          let w1 : World := { w with components := { w.components with
            inventory := alInsert w.components.inventory character inv2 } }
          match alFind w1.components.item item_entity with
          | none => none
          | some item_type =>
            match item_type with
            | ItemType.HealthPotion => none
            | ItemType.FireballScroll =>
              match w1.spawn_projectile character_coord target ProjectileType.Fireball with
              | none => none
              | some w2 =>
                some (w2, message_log ++ [LogMessage.PlayerLaunchesProjectile ProjectileType.Fireball], true)

/-- `World::maybe_drop_item`; the flag is the `Result<(), ()>`. -/
def World.maybe_drop_item (w : World) (character : Entity) (inventory_index : Nat)
    (message_log : List LogMessage) : Option (World × List LogMessage × Bool) :=
  match w.spatial_table.coord_of character with
  | none => none
  | some coord =>
    if ((w.spatial_table.layers_at_checked coord).object).isSome then
      some (w, message_log ++ [LogMessage.NoSpaceToDropItem], false)
    else
      match alFind w.components.inventory character with
      | none => none
      | some inventory =>
        match inventory.remove inventory_index with
        | .error _ => some (w, message_log ++ [LogMessage.NoItemInInventorySlot], false)
        | .ok (item, inv2) =>
          let w1 : World := { w with components := { w.components with
            inventory := alInsert w.components.inventory character inv2 } }
          match w1.spatial_table.update item { coord := coord, layer := some Layer.Object } with
          | .error _ => none
          | .ok st =>
            let w2 : World := { w1 with spatial_table := st }
            match alFind w2.components.item item with
            | none => none
            | some item_type =>
              some (w2, message_log ++ [LogMessage.PlayerDrops item_type], true)

/-- Phase one of `World::move_projectiles`: a single scan of the
trajectory table. For each entity the next step (if any) is consumed, the
destination cell is inspected on the feature and character layers, the
coordinate update is attempted with its failure ignored, and removal
marks plus fireball hits are collected. Returns the scanned spatial
table, the consumed trajectory table, the removal list and the hit list,
in iteration order. -/
def projectile_scan (proj : AL ProjectileType) :
    SpatialTable → List (Entity × List CardinalDirection) →
    Option (SpatialTable × AL (List CardinalDirection) × List Entity × List Entity)
  | st, [] => some (st, [], [], [])
  | st, (e, t) :: rest =>
    match t with
    | [] =>
      match projectile_scan proj st rest with
      | none => none
      | some (st', trajs, rem, hits) => some (st', (e, []) :: trajs, e :: rem, hits)
    | d :: t' =>
      match st.coord_of e with
      | none => none
      | some current_coord =>
        let new_coord := current_coord + d.coord
        let dest_layers := st.layers_at_checked new_coord
        let marked : Bool := dest_layers.feature.isSome || dest_layers.character.isSome
        let hit : Option Entity :=
          if dest_layers.feature.isSome then none
          else match dest_layers.character with
            | some character => if (alFind proj e).isSome then some character else none
            | none => none
        let st1 := match st.update_coord e new_coord with
          | some (.ok stn) => stn
          | _ => st
        match projectile_scan proj st1 rest with
        | none => none
        | some (st', trajs, rem, hits) =>
          some (st', (e, t') :: trajs,
            (if marked then e :: rem else rem),
            (match hit with | some character => character :: hits | none => hits))

/-- Phase three of `World::move_projectiles`: apply the queued fireball
hits through the damage path, two damage each, logging `NpcDies` when an
NPC victim dies. -/
def apply_fireball_hits : World → List LogMessage → List Entity → Option (World × List LogMessage)
  | w, log, [] => some (w, log)
  | w, log, e :: rest =>
    let maybe_npc := alFind w.components.npc_type e
    match w.character_damage e 2 with
    | none => none
    | some (w', victim_dies) =>
      let log' := if victim_dies then
          (match maybe_npc with
            | some npc => log ++ [LogMessage.NpcDies npc]
            | none => log)
        else log
      apply_fireball_hits w' log' rest

def World.move_projectiles (w : World) (message_log : List LogMessage) : Option (World × List LogMessage) :=
  match projectile_scan w.components.projectile w.spatial_table w.components.trajectory with
  | none => none
  | some (st', trajs, entities_to_remove, fireball_hit) =>
    let w1 : World := { w with
      spatial_table := st'
      components := { w.components with trajectory := trajs } }
    let w2 := entities_to_remove.foldl (fun wa e => wa.remove_entity e) w1
    apply_fireball_hits w2 message_log fireball_hit

/-- Iterated world ticks of `move_projectiles` (the driver loop of the
game while projectiles are in flight). -/
def World.ticks : Nat → World → List LogMessage → Option (World × List LogMessage)
  | 0, w, log => some (w, log)
  | n + 1, w, log =>
    match w.move_projectiles log with
    | none => none
    | some (w', log') => World.ticks n w' log'

def World.has_projectiles (w : World) : Bool :=
  !w.components.trajectory.isEmpty

def World.is_living_character (w : World) (e : Entity) : Bool :=
  decide (w.spatial_table.layer_of e = some Layer.Character)

def World.hit_points (w : World) (e : Entity) : Option HitPoints :=
  alFind w.components.hit_points e

def World.entity_coord (w : World) (e : Entity) : Option Coord :=
  w.spatial_table.coord_of e

def World.inventory (w : World) (e : Entity) : Option Inventory :=
  alFind w.components.inventory e

/-- Sequential insertion of several items (the driver of repeated
pickups), used to state the capacity property of `Inventory`. -/
def insertAll (inv : Inventory) : List Entity → Except InventoryIsFull Inventory
  | [] => .ok inv
  | e :: rest =>
    match inv.insert e with
    | .error f => .error f
    | .ok inv2 => insertAll inv2 rest

def Inventory.free_slots (inv : Inventory) : Nat :=
  inv.slots.countP (fun s => s.isNone)

/-- The spatial-uniqueness invariant: at most one entity occupies any
(coordinate, layer) cell, together with key uniqueness of the
entity-to-location map. -/
def SpatialTable.Ok (st : SpatialTable) : Prop :=
  (alKeys st.locs).Nodup ∧ ∀ c l, st.locs.countP (cellPred c l) ≤ 1

/-- No two location entries share a cell on the same (present) layer. -/
def PairCellFree (a b : Entity × Location) : Prop :=
  ¬(a.2.coord = b.2.coord ∧ a.2.layer = b.2.layer ∧ a.2.layer ≠ none)

instance PairCellFree.decidable (a b : Entity × Location) : Decidable (PairCellFree a b) :=
  decidable_of_iff (¬(a.2.coord = b.2.coord ∧ a.2.layer = b.2.layer ∧ a.2.layer ≠ none)) Iff.rfl

/-- A decidable reformulation of `SpatialTable.Ok` used to check concrete
states. -/
def SpatialTable.OkB (st : SpatialTable) : Prop :=
  (alKeys st.locs).Nodup ∧ st.locs.Pairwise PairCellFree

instance SpatialTable.OkB.decidable (st : SpatialTable) : Decidable st.OkB :=
  decidable_of_iff ((alKeys st.locs).Nodup ∧ st.locs.Pairwise PairCellFree) Iff.rfl

/-- The hit-point invariant: `current ≤ max` for every entity holding the
attribute. -/
def World.HpOk (w : World) : Prop :=
  ∀ e hp, alFind w.components.hit_points e = some hp → hp.current ≤ hp.max

def World.Ok (w : World) : Prop :=
  w.spatial_table.Ok ∧ w.HpOk

/-- The world states reachable through the public operations. -/
inductive Reachable : World → Prop
  | new (size : Size) : Reachable (World.new size)
  | populate {w w' : World} (terrain : List (Coord × TerrainTile)) :
      Reachable w → w.populate terrain = some w' → Reachable w'
  | move_character {w w' : World} {log log' : List LogMessage} (e : Entity) (d : CardinalDirection) :
      Reachable w → w.maybe_move_character e d log = some (w', log') → Reachable w'
  | get_item {w w' : World} {log log' : List LogMessage} {ok : Bool} (e : Entity) :
      Reachable w → w.maybe_get_item e log = some (w', log', ok) → Reachable w'
  | use_item {w w' : World} {log log' : List LogMessage} {r : Option ItemUsage} (e : Entity) (i : Nat) :
      Reachable w → w.maybe_use_item e i log = some (w', log', r) → Reachable w'
  | use_item_aim {w w' : World} {log log' : List LogMessage} {ok : Bool} (e : Entity) (i : Nat) (t : Coord) :
      Reachable w → w.maybe_use_item_aim e i t log = some (w', log', ok) → Reachable w'
  | drop_item {w w' : World} {log log' : List LogMessage} {ok : Bool} (e : Entity) (i : Nat) :
      Reachable w → w.maybe_drop_item e i log = some (w', log', ok) → Reachable w'
  | projectiles {w w' : World} {log log' : List LogMessage} :
      Reachable w → w.move_projectiles log = some (w', log') → Reachable w'
  | remove {w : World} (e : Entity) :
      Reachable w → Reachable (w.remove_entity e)

/-! ### Concrete worlds used to exercise the generic statements -/

def demoTerrain : List (Coord × TerrainTile) :=
  [(⟨0, 0⟩, TerrainTile.Player),
   (⟨1, 0⟩, TerrainTile.Npc NpcType.Orc),
   (⟨2, 0⟩, TerrainTile.Wall),
   (⟨0, 1⟩, TerrainTile.Item ItemType.HealthPotion),
   (⟨1, 1⟩, TerrainTile.Floor)]

def demoWorld : World :=
  ((World.new ⟨3, 2⟩).populate demoTerrain).getD (World.new ⟨3, 2⟩)

/-- A world with a player (entity 0) at the origin holding a fireball
scroll (entity 1, stored only in the inventory) in slot 0; slot 1 is
empty and the origin cell has no object. -/
def aimWorld : World :=
  { entity_allocator := 2
    components :=
      { tile := [(0, Tile.Player), (1, Tile.Item ItemType.FireballScroll)]
        npc_type := []
        hit_points := [(0, ⟨20, 20⟩)]
        item := [(1, ItemType.FireballScroll)]
        inventory := [(0, ⟨[some 1, none]⟩)]
        trajectory := []
        projectile := [] }
    spatial_table := { grid_size := ⟨3, 3⟩, locs := [(0, ⟨⟨0, 0⟩, some Layer.Character⟩)] } }

/-- A world with a player (entity 0) standing on a ground item (entity 1,
Object layer) while its single-slot inventory is already full (holding
entity 2). -/
def fullInvWorld : World :=
  { entity_allocator := 3
    components :=
      { tile := [(0, Tile.Player), (1, Tile.Item ItemType.HealthPotion),
                 (2, Tile.Item ItemType.FireballScroll)]
        npc_type := []
        hit_points := [(0, ⟨20, 20⟩)]
        item := [(1, ItemType.HealthPotion), (2, ItemType.FireballScroll)]
        inventory := [(0, ⟨[some 2]⟩)]
        trajectory := []
        projectile := [] }
    spatial_table := { grid_size := ⟨3, 3⟩
                       locs := [(0, ⟨⟨0, 0⟩, some Layer.Character⟩),
                                (1, ⟨⟨0, 0⟩, some Layer.Object⟩)] } }

/-- A world in which an orc (entity 0, one hit point) stands at (1,1) on
top of a ground health potion (entity 1, Object layer). -/
def dieWorld : World :=
  { entity_allocator := 3
    components :=
      { tile := [(0, Tile.Npc NpcType.Orc), (1, Tile.Item ItemType.HealthPotion)]
        npc_type := [(0, NpcType.Orc)]
        hit_points := [(0, ⟨1, 2⟩)]
        item := [(1, ItemType.HealthPotion)]
        inventory := []
        trajectory := []
        projectile := [] }
    spatial_table := { grid_size := ⟨3, 3⟩
                       locs := [(0, ⟨⟨1, 1⟩, some Layer.Character⟩),
                                (1, ⟨⟨1, 1⟩, some Layer.Object⟩)] } }

/-- A world with a player (entity 0) at 12/20 hit points holding a health
potion (entity 1) in the only inventory slot. -/
def potWorld : World :=
  { entity_allocator := 2
    components :=
      { tile := [(0, Tile.Player), (1, Tile.Item ItemType.HealthPotion)]
        npc_type := []
        hit_points := [(0, ⟨12, 20⟩)]
        item := [(1, ItemType.HealthPotion)]
        inventory := [(0, ⟨[some 1]⟩)]
        trajectory := []
        projectile := [] }
    spatial_table := { grid_size := ⟨3, 3⟩, locs := [(0, ⟨⟨0, 0⟩, some Layer.Character⟩)] } }

/-- A world exercising every branch of maybe_move_character: a player
(entity 0) at (0,0); an orc with 2 hit points (entity 1) at (1,0); an orc
with 1 hit point (entity 2) at (0,1); a wall feature (entity 3) at (2,0);
a troll (entity 4) at (1,1). -/
def moveWorld : World :=
  { entity_allocator := 5
    components :=
      { tile := [(0, Tile.Player), (1, Tile.Npc NpcType.Orc), (2, Tile.Npc NpcType.Orc),
                 (3, Tile.Wall), (4, Tile.Npc NpcType.Troll)]
        npc_type := [(1, NpcType.Orc), (2, NpcType.Orc), (4, NpcType.Troll)]
        hit_points := [(0, ⟨20, 20⟩), (1, ⟨2, 2⟩), (2, ⟨1, 2⟩), (4, ⟨6, 6⟩)]
        item := []
        inventory := [(0, ⟨[none]⟩)]
        trajectory := []
        projectile := [] }
    spatial_table := { grid_size := ⟨3, 3⟩
                       locs := [(0, ⟨⟨0, 0⟩, some Layer.Character⟩),
                                (1, ⟨⟨1, 0⟩, some Layer.Character⟩),
                                (2, ⟨⟨0, 1⟩, some Layer.Character⟩),
                                (3, ⟨⟨2, 0⟩, some Layer.Feature⟩),
                                (4, ⟨⟨1, 1⟩, some Layer.Character⟩)] } }

/-- A demonstration world for projectile travel: a single fireball spawned
at the origin aimed two cells east on an empty 5x5 grid. -/
def projDemo : World :=
  (((World.new ⟨5, 5⟩).spawn_projectile ⟨0, 0⟩ ⟨2, 0⟩ ProjectileType.Fireball).getD
    (World.new ⟨5, 5⟩))

/-- The world after three ticks of `projDemo` (enough for the two-step
trajectory to be exhausted and the projectile destroyed). -/
def projDemoRes : World × List LogMessage :=
  (World.ticks 3 projDemo []).getD (projDemo, [])

/-- Two projectiles in single file on a 4x1 corridor, both flying east:
entity 0 at the origin, entity 1 one cell ahead of it. -/
def twoProjWorld : World :=
  (((World.new ⟨4, 1⟩).spawn_projectile ⟨0, 0⟩ ⟨2, 0⟩ ProjectileType.Fireball).bind
    (fun w1 => w1.spawn_projectile ⟨1, 0⟩ ⟨3, 0⟩ ProjectileType.Fireball)).getD
    (World.new ⟨4, 1⟩)

/-- The result of one projectile tick on `twoProjWorld`. -/
def twoProjRes : World × List LogMessage :=
  (twoProjWorld.move_projectiles []).getD (twoProjWorld, [])

/-! ### Association-list lemmas -/

theorem alFind_cons {V : Type} (a : Entity × V) (t : AL V) (k : Entity) :
    alFind (a :: t) k = if a.1 = k then some a.2 else alFind t k := by
  by_cases h : a.1 = k
  · simp [alFind, List.find?_cons_of_pos, h]
  · simp [alFind, List.find?_cons_of_neg, h]

theorem alFind_insert_self {V : Type} (l : AL V) (k : Entity) (v : V) :
    alFind (alInsert l k v) k = some v := by
  induction l with
  | nil => simp [alInsert, alFind_cons]
  | cons p t ih =>
    by_cases h : p.1 = k
    · simp [alInsert, h, alFind_cons]
    · simp [alInsert, h, alFind_cons, ih]

theorem alFind_insert_ne {V : Type} (l : AL V) (k k' : Entity) (v : V) (h : k' ≠ k) :
    alFind (alInsert l k v) k' = alFind l k' := by
  induction l with
  | nil => simp [alInsert, alFind_cons, alFind, Ne.symm h]
  | cons p t ih =>
    by_cases hp : p.1 = k
    · subst hp
      simp [alInsert, alFind_cons, Ne.symm h]
    · simp [alInsert, hp, alFind_cons, ih]

theorem alFind_erase_self {V : Type} (l : AL V) (k : Entity) :
    alFind (alErase l k) k = none := by
  induction l with
  | nil => rfl
  | cons p t ih =>
    by_cases hp : p.1 = k
    · rw [alErase, if_pos hp]
      exact ih
    · rw [alErase, if_neg hp, alFind_cons, if_neg hp]
      exact ih

theorem alFind_erase_ne {V : Type} (l : AL V) (k k' : Entity) (h : k' ≠ k) :
    alFind (alErase l k) k' = alFind l k' := by
  induction l with
  | nil => rfl
  | cons p t ih =>
    by_cases hp : p.1 = k
    · have hp' : p.1 ≠ k' := fun he => h (he ▸ hp)
      rw [alErase, if_pos hp, alFind_cons, if_neg hp', ih]
    · rw [alErase, if_neg hp, alFind_cons, alFind_cons, ih]

theorem alErase_sublist {V : Type} (l : AL V) (k : Entity) : List.Sublist (alErase l k) l := by
  induction l with
  | nil => simp [alErase]
  | cons p t ih =>
    by_cases hp : p.1 = k
    · rw [alErase, if_pos hp]
      exact ih.cons p
    · rw [alErase, if_neg hp]
      exact ih.cons₂ p

theorem mem_of_alErase {V : Type} {l : AL V} {k : Entity} {q : Entity × V}
    (h : q ∈ alErase l k) : q ∈ l :=
  (alErase_sublist l k).mem h

theorem key_ne_of_mem_alErase {V : Type} {l : AL V} {k : Entity} {q : Entity × V}
    (h : q ∈ alErase l k) : q.1 ≠ k := by
  induction l with
  | nil => simp [alErase] at h
  | cons p t ih =>
    by_cases hp : p.1 = k
    · rw [alErase, if_pos hp] at h
      exact ih h
    · rw [alErase, if_neg hp] at h
      rcases List.mem_cons.mp h with h1 | h1
      · exact h1 ▸ hp
      · exact ih h1

theorem alErase_eq_self {V : Type} {l : AL V} {k : Entity} (h : k ∉ alKeys l) :
    alErase l k = l := by
  induction l with
  | nil => rfl
  | cons p t ih =>
    simp only [alKeys, List.map_cons, List.mem_cons] at h
    push_neg at h
    rw [alErase, if_neg (fun he => h.1 he.symm), ih h.2]

theorem mem_alInsert {V : Type} {l : AL V} {k : Entity} {v : V} {q : Entity × V}
    (h : q ∈ alInsert l k v) : q ∈ l ∨ q = (k, v) := by
  induction l with
  | nil =>
    rw [alInsert] at h
    simp at h
    exact Or.inr h
  | cons p t ih =>
    by_cases hp : p.1 = k
    · rw [alInsert, if_pos hp] at h
      rcases List.mem_cons.mp h with h1 | h1
      · exact Or.inr h1
      · exact Or.inl (List.mem_cons_of_mem _ h1)
    · rw [alInsert, if_neg hp] at h
      rcases List.mem_cons.mp h with h1 | h1
      · exact Or.inl (h1 ▸ List.mem_cons_self p t)
      · rcases ih h1 with h2 | h2
        · exact Or.inl (List.mem_cons_of_mem _ h2)
        · exact Or.inr h2

theorem mem_of_alFind {V : Type} {l : AL V} {k : Entity} {v : V}
    (h : alFind l k = some v) : (k, v) ∈ l := by
  induction l with
  | nil => simp [alFind] at h
  | cons p t ih =>
    rw [alFind_cons] at h
    by_cases hp : p.1 = k
    · rw [if_pos hp] at h
      injection h with h2
      have hpv : p = (k, v) := by
        obtain ⟨p1, p2⟩ := p
        simp only at hp h2
        rw [hp, h2]
      rw [← hpv]
      exact List.mem_cons_self p t
    · rw [if_neg hp] at h
      exact List.mem_cons_of_mem _ (ih h)

theorem alFind_eq_of_mem {V : Type} {l : AL V} {k : Entity} {v : V}
    (hn : (alKeys l).Nodup) (h : (k, v) ∈ l) : alFind l k = some v := by
  induction l with
  | nil => simp at h
  | cons p t ih =>
    simp only [alKeys, List.map_cons, List.nodup_cons] at hn
    rcases List.mem_cons.mp h with h1 | h1
    · rw [← h1]
      simp [alFind_cons]
    · have hk : p.1 ≠ k := by
        intro he
        exact hn.1 (he ▸ (List.mem_map.mpr ⟨(k, v), h1, rfl⟩))
      rw [alFind_cons, if_neg hk]
      exact ih hn.2 h1

theorem alKeys_nodup_insert {V : Type} {l : AL V} (k : Entity) (v : V)
    (h : (alKeys l).Nodup) : (alKeys (alInsert l k v)).Nodup := by
  induction l with
  | nil => simp [alInsert, alKeys]
  | cons p t ih =>
    simp only [alKeys, List.map_cons, List.nodup_cons] at h
    by_cases hp : p.1 = k
    · rw [alInsert, if_pos hp]
      simp only [alKeys, List.map_cons, List.nodup_cons]
      exact ⟨hp ▸ h.1, h.2⟩
    · rw [alInsert, if_neg hp]
      simp only [alKeys, List.map_cons, List.nodup_cons]
      refine ⟨fun hmem => ?_, ih h.2⟩
      rcases List.mem_map.mp hmem with ⟨q, hq, hq1⟩
      rcases mem_alInsert hq with h2 | h2
      · exact h.1 (List.mem_map.mpr ⟨q, h2, hq1⟩)
      · subst h2
        exact hp hq1.symm

theorem alKeys_nodup_erase {V : Type} {l : AL V} (k : Entity)
    (h : (alKeys l).Nodup) : (alKeys (alErase l k)).Nodup :=
  h.sublist (List.Sublist.map Prod.fst (alErase_sublist l k))

/-! ### Counting lemmas and the spatial uniqueness invariant -/

theorem two_le_countP {α : Type} (p : α → Bool) {l : List α} {a b : α}
    (ha : a ∈ l) (hb : b ∈ l) (hab : a ≠ b) (hpa : p a = true) (hpb : p b = true) :
    2 ≤ l.countP p := by
  induction l with
  | nil => simp at ha
  | cons x t ih =>
    rw [List.countP_cons]
    rcases List.mem_cons.mp ha with h1 | h1
    · subst h1
      have hbt : b ∈ t := by
        rcases List.mem_cons.mp hb with h2 | h2
        · exact absurd h2.symm hab
        · exact h2
      have h1t : 0 < t.countP p := List.countP_pos.mpr ⟨b, hbt, hpb⟩
      rw [if_pos hpa]
      omega
    · rcases List.mem_cons.mp hb with h2 | h2
      · subst h2
        have h1t : 0 < t.countP p := List.countP_pos.mpr ⟨a, h1, hpa⟩
        rw [if_pos hpb]
        omega
      · have := ih h1 h2
        omega

theorem countP_alErase_le {V : Type} (p : Entity × V → Bool) (l : AL V) (k : Entity) :
    (alErase l k).countP p ≤ l.countP p :=
  (alErase_sublist l k).countP_le p

theorem countP_alInsert {V : Type} (p : Entity × V → Bool) {l : AL V} (k : Entity) (v : V)
    (h : (alKeys l).Nodup) :
    (alInsert l k v).countP p = (alErase l k).countP p + (if p (k, v) then 1 else 0) := by
  induction l with
  | nil => simp [alInsert, alErase, List.countP_cons]
  | cons q t ih =>
    simp only [alKeys, List.map_cons, List.nodup_cons] at h
    by_cases hq : q.1 = k
    · rw [alInsert, if_pos hq, alErase, if_pos hq]
      have hkt : k ∉ alKeys t := hq ▸ h.1
      rw [alErase_eq_self hkt, List.countP_cons]
    · rw [alInsert, if_neg hq, alErase, if_neg hq]
      rw [List.countP_cons, List.countP_cons, ih h.2]
      omega

theorem occupant_eq_none_iff (st : SpatialTable) (c : Coord) (l : Layer) :
    st.occupant c l = none ↔ st.locs.countP (cellPred c l) = 0 := by
  rw [SpatialTable.occupant, SpatialTable.occupants, List.head?_eq_none_iff,
    List.map_eq_nil, List.countP_eq_length_filter, List.length_eq_zero]

theorem occupant_eq_some {st : SpatialTable} {c : Coord} {l : Layer} {e : Entity}
    (h : st.occupant c l = some e) :
    ∃ loc, (e, loc) ∈ st.locs ∧ loc.coord = c ∧ loc.layer = some l := by
  rw [SpatialTable.occupant, SpatialTable.occupants] at h
  cases hL : (st.locs.filter (cellPred c l)).map Prod.fst with
  | nil =>
    rw [hL] at h
    simp at h
  | cons a as =>
    rw [hL] at h
    simp only [List.head?_cons, Option.some.injEq] at h
    have ha : e ∈ (st.locs.filter (cellPred c l)).map Prod.fst := by
      rw [hL, ← h]
      exact List.mem_cons_self _ _
    rcases List.mem_map.mp ha with ⟨q, hq, hq1⟩
    have hmem := List.mem_of_mem_filter hq
    have hpred := List.of_mem_filter hq
    simp only [cellPred, decide_eq_true_eq] at hpred
    refine ⟨q.2, ?_, hpred.1, hpred.2⟩
    rw [← hq1]
    exact hmem

theorem countP_erase_eq_zero_of_occupant {st : SpatialTable} {c : Coord} {l : Layer} {e : Entity}
    (hc : st.locs.countP (cellPred c l) ≤ 1)
    (h : st.occupant c l = some e) :
    (alErase st.locs e).countP (cellPred c l) = 0 := by
  by_contra hne
  have hpos : 0 < (alErase st.locs e).countP (cellPred c l) := Nat.pos_of_ne_zero hne
  rcases List.countP_pos.mp hpos with ⟨q, hq, hpq⟩
  rcases occupant_eq_some h with ⟨loc, hmem, hcoord, hlayer⟩
  have hqloc : q ≠ (e, loc) := by
    intro he
    exact key_ne_of_mem_alErase hq (by rw [he])
  have h2 : 2 ≤ st.locs.countP (cellPred c l) :=
    two_le_countP _ (mem_of_alErase hq) hmem hqloc hpq
      (by simp [cellPred, hcoord, hlayer])
  omega

theorem insert_Ok_aux {st : SpatialTable} {e : Entity} {loc : Location}
    (h : st.Ok)
    (hfree : ∀ l0, loc.layer = some l0 → (alErase st.locs e).countP (cellPred loc.coord l0) = 0) :
    SpatialTable.Ok { st with locs := alInsert st.locs e loc } := by
  constructor
  · exact alKeys_nodup_insert e loc h.1
  · intro c l
    show (alInsert st.locs e loc).countP (cellPred c l) ≤ 1
    rw [countP_alInsert _ e loc h.1]
    by_cases hp : cellPred c l (e, loc) = true
    · have hp' : loc.coord = c ∧ loc.layer = some l := by
        simpa [cellPred] using hp
      have h0 := hfree l hp'.2
      rw [hp'.1] at h0
      rw [if_pos hp, h0]
    · rw [if_neg hp]
      have := countP_alErase_le (cellPred c l) st.locs e
      have := h.2 c l
      omega

theorem SpatialTable.update_Ok {st st' : SpatialTable} {e : Entity} {loc : Location}
    (h : st.Ok) (hu : st.update e loc = .ok st') : st'.Ok := by
  rw [SpatialTable.update] at hu
  split at hu
  · rename_i hl
    simp only [Except.ok.injEq] at hu
    subst hu
    exact insert_Ok_aux h (fun l0 hl0 => by rw [hl] at hl0; cases hl0)
  · rename_i l0 hl
    split at hu
    · rename_i hocc
      simp only [Except.ok.injEq] at hu
      subst hu
      refine insert_Ok_aux h (fun l1 hl1 => ?_)
      rw [hl] at hl1
      injection hl1 with hl1
      subst hl1
      have h0 := (occupant_eq_none_iff st loc.coord l0).mp hocc
      have := countP_alErase_le (cellPred loc.coord l0) st.locs e
      omega
    · rename_i e2 hocc
      split at hu
      · rename_i he
        simp only [Except.ok.injEq] at hu
        subst hu
        refine insert_Ok_aux h (fun l1 hl1 => ?_)
        rw [hl] at hl1
        injection hl1 with hl1
        subst hl1
        subst he
        exact countP_erase_eq_zero_of_occupant (h.2 _ _) hocc
      · cases hu

theorem SpatialTable.remove_Ok {st : SpatialTable} (e : Entity) (h : st.Ok) :
    (st.remove e).Ok :=
  ⟨alKeys_nodup_erase e h.1, fun c l => le_trans (countP_alErase_le _ _ _) (h.2 c l)⟩

theorem SpatialTable.update_coord_Ok {st st' : SpatialTable} {e : Entity} {c : Coord}
    (h : st.Ok) (hu : st.update_coord e c = some (.ok st')) : st'.Ok := by
  rw [SpatialTable.update_coord] at hu
  cases hf : alFind st.locs e with
  | none =>
    rw [hf] at hu
    cases hu
  | some loc =>
    rw [hf] at hu
    simp only [Option.map_some', Option.some.injEq] at hu
    exact update_Ok h hu

theorem SpatialTable.update_layer_Ok {st st' : SpatialTable} {e : Entity} {l : Layer}
    (h : st.Ok) (hu : st.update_layer e l = some (.ok st')) : st'.Ok := by
  rw [SpatialTable.update_layer] at hu
  cases hf : alFind st.locs e with
  | none =>
    rw [hf] at hu
    cases hu
  | some loc =>
    rw [hf] at hu
    simp only [Option.map_some', Option.some.injEq] at hu
    exact update_Ok h hu

theorem pairwise_countP_le_one {l : List (Entity × Location)}
    (h : l.Pairwise PairCellFree) (c : Coord) (ll : Layer) :
    l.countP (cellPred c ll) ≤ 1 := by
  induction l with
  | nil => simp
  | cons q t ih =>
    rw [List.pairwise_cons] at h
    rw [List.countP_cons]
    by_cases hq : cellPred c ll q = true
    · have h0 : t.countP (cellPred c ll) = 0 := by
        rw [List.countP_eq_zero]
        intro b hb hpb
        have hfree := h.1 b hb
        simp only [cellPred, decide_eq_true_eq] at hq hpb
        exact hfree ⟨by rw [hq.1, hpb.1], by rw [hq.2, hpb.2], by rw [hq.2]; simp⟩
      rw [h0, if_pos hq]
    · rw [if_neg hq]
      have := ih h.2
      omega

theorem SpatialTable.okB_ok {st : SpatialTable} (h : st.OkB) : st.Ok :=
  ⟨h.1, fun c l => pairwise_countP_le_one h.2 c l⟩

/-! ### Preservation of the invariants by the world operations -/

theorem hpOk_of_insert {t : AL HitPoints} {k : Entity} {hp : HitPoints}
    (h : ∀ e hp0, alFind t e = some hp0 → hp0.current ≤ hp0.max)
    (hhp : hp.current ≤ hp.max) :
    ∀ e hp0, alFind (alInsert t k hp) e = some hp0 → hp0.current ≤ hp0.max := by
  intro e hp0 hf
  by_cases he : e = k
  · subst he
    rw [alFind_insert_self] at hf
    injection hf with hf
    exact hf ▸ hhp
  · rw [alFind_insert_ne _ _ _ _ he] at hf
    exact h e hp0 hf

theorem hpOk_of_erase {t : AL HitPoints} {k : Entity}
    (h : ∀ e hp0, alFind t e = some hp0 → hp0.current ≤ hp0.max) :
    ∀ e hp0, alFind (alErase t k) e = some hp0 → hp0.current ≤ hp0.max := by
  intro e hp0 hf
  by_cases he : e = k
  · subst he
    rw [alFind_erase_self] at hf
    cases hf
  · rw [alFind_erase_ne _ _ _ he] at hf
    exact h e hp0 hf

theorem World.remove_entity_Ok {w : World} (e : Entity) (h : w.Ok) : (w.remove_entity e).Ok :=
  ⟨SpatialTable.remove_Ok e h.1, hpOk_of_erase h.2⟩

theorem World.new_Ok (size : Size) : (World.new size).Ok := by
  refine ⟨⟨List.nodup_nil, fun c l => ?_⟩, fun e hp hf => ?_⟩
  · simp [World.new, SpatialTable.new]
  · simp [World.new, Components.empty, alFind] at hf

theorem World.spawn_floor_Ok {w w' : World} {c : Coord} (h : w.Ok)
    (hs : w.spawn_floor c = some w') : w'.Ok := by
  simp only [World.spawn_floor] at hs
  split at hs
  · cases hs
  · rename_i st hst
    simp only [Option.some.injEq] at hs
    subst hs
    exact ⟨SpatialTable.update_Ok h.1 hst, h.2⟩

theorem World.spawn_wall_Ok {w w' : World} {c : Coord} (h : w.Ok)
    (hs : w.spawn_wall c = some w') : w'.Ok := by
  simp only [World.spawn_wall] at hs
  split at hs
  · cases hs
  · rename_i st hst
    simp only [Option.some.injEq] at hs
    subst hs
    exact ⟨SpatialTable.update_Ok h.1 hst, h.2⟩

theorem World.spawn_item_Ok {w w' : World} {c : Coord} {it : ItemType} (h : w.Ok)
    (hs : w.spawn_item c it = some w') : w'.Ok := by
  simp only [World.spawn_item] at hs
  split at hs
  · cases hs
  · rename_i st hst
    simp only [Option.some.injEq] at hs
    subst hs
    exact ⟨SpatialTable.update_Ok h.1 hst, h.2⟩

theorem World.spawn_projectile_Ok {w w' : World} {a b : Coord} {pt : ProjectileType} (h : w.Ok)
    (hs : w.spawn_projectile a b pt = some w') : w'.Ok := by
  simp only [World.spawn_projectile] at hs
  split at hs
  · cases hs
  · rename_i st hst
    simp only [Option.some.injEq] at hs
    subst hs
    exact ⟨SpatialTable.update_Ok h.1 hst, h.2⟩

theorem World.spawn_player_Ok {w : World} {c : Coord} {p : World × Entity} (h : w.Ok)
    (hs : w.spawn_player c = some p) : p.1.Ok := by
  simp only [World.spawn_player] at hs
  split at hs
  · cases hs
  · rename_i st hst
    simp only [Option.some.injEq] at hs
    subst hs
    exact ⟨SpatialTable.update_Ok h.1 hst, hpOk_of_insert h.2 (by simp [HitPoints.new_full])⟩

theorem World.spawn_npc_Ok {w : World} {c : Coord} {n : NpcType} {p : World × Entity} (h : w.Ok)
    (hs : w.spawn_npc c n = some p) : p.1.Ok := by
  simp only [World.spawn_npc] at hs
  split at hs
  · cases hs
  · rename_i st hst
    simp only [Option.some.injEq] at hs
    subst hs
    refine ⟨SpatialTable.update_Ok h.1 hst, hpOk_of_insert h.2 ?_⟩
    cases n <;> simp [HitPoints.new_full]

theorem World.populate_Ok {terrain : List (Coord × TerrainTile)} :
    ∀ {w w' : World}, w.Ok → w.populate terrain = some w' → w'.Ok := by
  induction terrain with
  | nil =>
    intro w w' h hp
    rw [World.populate] at hp
    simp only [Option.some.injEq] at hp
    exact hp ▸ h
  | cons ct rest ih =>
    intro w w' h hp
    obtain ⟨c, t⟩ := ct
    simp only [World.populate] at hp
    split at hp
    · cases hp
    · rename_i w1 hw1
      refine ih ?_ hp
      cases t <;> simp only at hw1
      case Player =>
        cases hf : w.spawn_floor c with
        | none => rw [hf] at hw1; cases hw1
        | some wf =>
          rw [hf] at hw1
          simp only [Option.some_bind] at hw1
          cases hsp : wf.spawn_player c with
          | none => rw [hsp] at hw1; cases hw1
          | some pp =>
            rw [hsp] at hw1
            simp only [Option.map_some', Option.some.injEq] at hw1
            exact hw1 ▸ World.spawn_player_Ok (World.spawn_floor_Ok h hf) hsp
      case Floor => exact World.spawn_floor_Ok h hw1
      case Wall =>
        cases hf : w.spawn_floor c with
        | none => rw [hf] at hw1; cases hw1
        | some wf =>
          rw [hf] at hw1
          simp only [Option.some_bind] at hw1
          exact World.spawn_wall_Ok (World.spawn_floor_Ok h hf) hw1
      case Npc n =>
        cases hn : w.spawn_npc c n with
        | none => rw [hn] at hw1; cases hw1
        | some pp =>
          rw [hn] at hw1
          simp only [Option.some_bind] at hw1
          exact World.spawn_floor_Ok (World.spawn_npc_Ok h hn) hw1
      case Item i =>
        cases hi : w.spawn_item c i with
        | none => rw [hi] at hw1; cases hw1
        | some wi =>
          rw [hi] at hw1
          simp only [Option.some_bind] at hw1
          exact World.spawn_floor_Ok (World.spawn_item_Ok h hi) hw1

theorem World.character_die_Ok {w w' : World} {e : Entity} (h : w.Ok)
    (hd : w.character_die e = some w') : w'.Ok := by
  simp only [World.character_die] at hd
  split at hd
  · cases hd
  · rename_i w3 hw3
    have h3 : w3.Ok := by
      split at hw3
      · cases hw3
      · rename_i st hst
        simp only [Option.some.injEq] at hw3
        subst hw3
        exact ⟨SpatialTable.update_layer_Ok h.1 hst, h.2⟩
      · rename_i occ hocc
        split at hw3
        · rename_i st hst
          simp only [Option.some.injEq] at hw3
          subst hw3
          exact ⟨SpatialTable.update_layer_Ok (SpatialTable.remove_Ok occ h.1) hst,
            hpOk_of_erase h.2⟩
        · cases hw3
    split at hd
    · simp only [Option.some.injEq] at hd
      subst hd
      exact ⟨h3.1, h3.2⟩
    · rename_i n hn
      simp only [Option.some.injEq] at hd
      subst hd
      exact ⟨h3.1, h3.2⟩
    · cases hd

theorem World.character_damage_Ok {w : World} {v : Entity} {d : Nat} {res : World × Bool}
    (h : w.Ok) (hd : w.character_damage v d = some res) : res.1.Ok := by
  simp only [World.character_damage] at hd
  split at hd
  · simp only [Option.some.injEq] at hd
    subst hd
    exact h
  · rename_i hp hhp
    have hcm : hp.current - d ≤ hp.max := le_trans (Nat.sub_le _ _) (h.2 v hp hhp)
    have h1 : World.Ok { w with components := { w.components with
        hit_points := alInsert w.components.hit_points v ⟨hp.current - d, hp.max⟩ } } :=
      ⟨h.1, hpOk_of_insert h.2 hcm⟩
    split at hd
    · split at hd
      · cases hd
      · rename_i w2 hw2
        simp only [Option.some.injEq] at hd
        subst hd
        exact World.character_die_Ok h1 hw2
    · simp only [Option.some.injEq] at hd
      subst hd
      exact h1

theorem World.maybe_move_character_Ok {w : World} {e : Entity} {d : CardinalDirection}
    {log : List LogMessage} {res : World × List LogMessage}
    (h : w.Ok) (hm : w.maybe_move_character e d log = some res) : res.1.Ok := by
  simp only [World.maybe_move_character] at hm
  split at hm
  · cases hm
  · rename_i c hc
    split at hm
    · split at hm
      · rename_i occ hocc
        split at hm
        · split at hm
          · cases hm
          · rename_i p hp
            split at hm
            · cases hm
            · rename_i n hn
              simp only [Option.some.injEq] at hm
              subst hm
              exact World.character_damage_Ok h hp
        · simp only [Option.some.injEq] at hm
          subst hm
          exact h
      · split at hm
        · split at hm
          · rename_i st hst
            simp only [Option.some.injEq] at hm
            subst hm
            exact ⟨SpatialTable.update_coord_Ok h.1 hst, h.2⟩
          · cases hm
        · simp only [Option.some.injEq] at hm
          subst hm
          exact h
    · simp only [Option.some.injEq] at hm
      subst hm
      exact h

theorem World.maybe_get_item_Ok {w : World} {e : Entity} {log : List LogMessage}
    {res : World × List LogMessage × Bool}
    (h : w.Ok) (hm : w.maybe_get_item e log = some res) : res.1.Ok := by
  simp only [World.maybe_get_item] at hm
  split at hm
  · cases hm
  · rename_i c hc
    split at hm
    · rename_i obj hobj
      split at hm
      · rename_i it hit
        split at hm
        · cases hm
        · rename_i inv hinv
          split at hm
          · rename_i inv2 hinv2
            simp only [Option.some.injEq] at hm
            subst hm
            exact ⟨SpatialTable.remove_Ok obj h.1, h.2⟩
          · simp only [Option.some.injEq] at hm
            subst hm
            exact h
      · simp only [Option.some.injEq] at hm
        subst hm
        exact h
    · simp only [Option.some.injEq] at hm
      subst hm
      exact h

theorem World.maybe_use_item_Ok {w : World} {e : Entity} {i : Nat} {log : List LogMessage}
    {res : World × List LogMessage × Option ItemUsage}
    (h : w.Ok) (hm : w.maybe_use_item e i log = some res) : res.1.Ok := by
  simp only [World.maybe_use_item] at hm
  split at hm
  · cases hm
  · rename_i inv hinv
    split at hm
    · simp only [Option.some.injEq] at hm
      subst hm
      exact h
    · rename_i item hitem
      split at hm
      · cases hm
      · rename_i it hit
        split at hm
        · split at hm
          · cases hm
          · rename_i hp hhp
            split at hm
            · cases hm
            · rename_i pr hpr
              simp only [Option.some.injEq] at hm
              subst hm
              exact ⟨h.1, hpOk_of_insert h.2 (Nat.min_le_left _ _)⟩
        · simp only [Option.some.injEq] at hm
          subst hm
          exact h

theorem World.maybe_use_item_aim_Ok {w : World} {e : Entity} {i : Nat} {t : Coord}
    {log : List LogMessage} {res : World × List LogMessage × Bool}
    (h : w.Ok) (hm : w.maybe_use_item_aim e i t log = some res) : res.1.Ok := by
  simp only [World.maybe_use_item_aim] at hm
  split at hm
  · cases hm
  · rename_i c hc
    split at hm
    · simp only [Option.some.injEq] at hm
      subst hm
      exact h
    · split at hm
      · cases hm
      · rename_i inv hinv
        split at hm
        · cases hm
        · rename_i pr hpr
          split at hm
          · cases hm
          · rename_i it hit
            split at hm
            · cases hm
            · split at hm
              · cases hm
              · rename_i w2 hw2
                simp only [Option.some.injEq] at hm
                subst hm
                refine World.spawn_projectile_Ok ?_ hw2
                exact ⟨h.1, h.2⟩

theorem World.maybe_drop_item_Ok {w : World} {e : Entity} {i : Nat}
    {log : List LogMessage} {res : World × List LogMessage × Bool}
    (h : w.Ok) (hm : w.maybe_drop_item e i log = some res) : res.1.Ok := by
  simp only [World.maybe_drop_item] at hm
  split at hm
  · cases hm
  · rename_i c hc
    split at hm
    · simp only [Option.some.injEq] at hm
      subst hm
      exact h
    · split at hm
      · cases hm
      · rename_i inv hinv
        split at hm
        · simp only [Option.some.injEq] at hm
          subst hm
          exact h
        · rename_i pr hpr
          split at hm
          · cases hm
          · rename_i st hst
            split at hm
            · cases hm
            · rename_i it hit
              simp only [Option.some.injEq] at hm
              subst hm
              exact ⟨SpatialTable.update_Ok h.1 hst, h.2⟩

theorem projectile_scan_Ok {proj : AL ProjectileType} :
    ∀ {st : SpatialTable} {entries : List (Entity × List CardinalDirection)}
      {st' : SpatialTable} {trajs : AL (List CardinalDirection)} {rem hits : List Entity},
    st.Ok → projectile_scan proj st entries = some (st', trajs, rem, hits) → st'.Ok := by
  intro st entries
  induction entries generalizing st with
  | nil =>
    intro st' trajs rem hits h hs
    rw [projectile_scan] at hs
    simp only [Option.some.injEq, Prod.mk.injEq] at hs
    exact hs.1 ▸ h
  | cons p rest ih =>
    intro st' trajs rem hits h hs
    obtain ⟨e, t⟩ := p
    simp only [projectile_scan] at hs
    split at hs
    · split at hs
      · cases hs
      · rename_i st2 trajs2 rem2 hits2 hq
        simp only [Option.some.injEq, Prod.mk.injEq] at hs
        exact hs.1 ▸ ih h hq
    · rename_i d t'
      split at hs
      · cases hs
      · rename_i c hc
        have hst1 : SpatialTable.Ok (match st.update_coord e (c + d.coord) with
            | some (.ok stn) => stn
            | _ => st) := by
          cases hu : st.update_coord e (c + d.coord) with
          | none => simpa [hu] using h
          | some r =>
            cases r with
            | ok stn => simpa [hu] using SpatialTable.update_coord_Ok h hu
            | error e2 => simpa [hu] using h
        split at hs
        · cases hs
        · rename_i st2 trajs2 rem2 hits2 hq
          simp only [Option.some.injEq, Prod.mk.injEq] at hs
          exact hs.1 ▸ ih hst1 hq

theorem foldl_remove_entity_Ok :
    ∀ (l : List Entity) (w : World), w.Ok → (l.foldl (fun wa e => wa.remove_entity e) w).Ok := by
  intro l
  induction l with
  | nil => intro w h; exact h
  | cons e rest ih =>
    intro w h
    exact ih _ (World.remove_entity_Ok e h)

theorem apply_fireball_hits_Ok :
    ∀ {hits : List Entity} {w : World} {log : List LogMessage} {res : World × List LogMessage},
    w.Ok → apply_fireball_hits w log hits = some res → res.1.Ok := by
  intro hits
  induction hits with
  | nil =>
    intro w log res h ha
    rw [apply_fireball_hits] at ha
    simp only [Option.some.injEq] at ha
    exact ha ▸ h
  | cons e rest ih =>
    intro w log res h ha
    rw [apply_fireball_hits] at ha
    cases hp : w.character_damage e 2 with
    | none =>
      rw [hp] at ha
      cases ha
    | some p =>
      obtain ⟨w1, died⟩ := p
      simp only [hp] at ha
      exact ih (World.character_damage_Ok h hp) ha

theorem World.move_projectiles_Ok {w : World} {log : List LogMessage}
    {res : World × List LogMessage}
    (h : w.Ok) (hm : w.move_projectiles log = some res) : res.1.Ok := by
  simp only [World.move_projectiles] at hm
  split at hm
  · cases hm
  · rename_i st2 trajs rem hits hq
    have h1 : World.Ok { w with
        spatial_table := st2
        components := { w.components with trajectory := trajs } } :=
      ⟨projectile_scan_Ok h.1 hq, h.2⟩
    exact apply_fireball_hits_Ok (foldl_remove_entity_Ok rem _ h1) hm

theorem reachable_Ok {w : World} (h : Reachable w) : w.Ok := by
  induction h with
  | new size => exact World.new_Ok size
  | populate terrain _ hs ih => exact World.populate_Ok ih hs
  | move_character e d _ hs ih => exact World.maybe_move_character_Ok ih hs
  | get_item e _ hs ih => exact World.maybe_get_item_Ok ih hs
  | use_item e i _ hs ih => exact World.maybe_use_item_Ok ih hs
  | use_item_aim e i t _ hs ih => exact World.maybe_use_item_aim_Ok ih hs
  | drop_item e i _ hs ih => exact World.maybe_drop_item_Ok ih hs
  | projectiles _ hs ih => exact World.move_projectiles_Ok ih hs
  | remove e _ ih => exact World.remove_entity_Ok e ih

/-! ### Claim C1 -/

/-- C1: Spatial uniqueness invariant: in every world state reachable by
the public operations (spawning via populate, maybe_move_character,
character death, item pickup/use/drop, move_projectiles, remove_entity),
for every coordinate and every layer, the occupancy query at that cell
returns at most one entity. -/
theorem spatial_uniqueness_reachable (w : World) (h : Reachable w) (c : Coord) (l : Layer) :
    (w.spatial_table.occupants c l).length ≤ 1 := by
  have hOk := reachable_Ok h
  rw [SpatialTable.occupants, List.length_map, ← List.countP_eq_length_filter]
  exact hOk.1.2 c l

theorem spatial_uniqueness_reachable_witness :
    (demoWorld.spatial_table.occupants ⟨2, 0⟩ Layer.Feature).length ≤ 1 :=
  spatial_uniqueness_reachable demoWorld
    (Reachable.populate demoTerrain (Reachable.new ⟨3, 2⟩) rfl) ⟨2, 0⟩ Layer.Feature

/-! ### Inventory lemmas (claim C8) -/

theorem fillFirstFree_none_iff (s : List (Option Entity)) (e : Entity) :
    fillFirstFree s e = none ↔ s.countP (fun o => o.isNone) = 0 := by
  induction s with
  | nil => simp [fillFirstFree]
  | cons o t ih =>
    cases o with
    | none => simp [fillFirstFree, List.countP_cons]
    | some x => simp [fillFirstFree, List.countP_cons, ih]

theorem fillFirstFree_some_spec {s : List (Option Entity)} {e : Entity} {s' : List (Option Entity)}
    (h : fillFirstFree s e = some s') :
    ∃ i, i < s.length ∧ s[i]? = some none ∧ (∀ j, j < i → s[j]? ≠ some none) ∧
      s' = s.set i (some e) := by
  induction s generalizing s' with
  | nil => simp [fillFirstFree] at h
  | cons o t ih =>
    cases o with
    | none =>
      rw [fillFirstFree] at h
      injection h with h
      refine ⟨0, by simp, by simp, fun j hj => by omega, by rw [← h]; simp⟩
    | some x =>
      rw [fillFirstFree] at h
      cases hf : fillFirstFree t e with
      | none => rw [hf] at h; cases h
      | some t2 =>
        rw [hf] at h
        injection h with h
        rcases ih hf with ⟨i, hi, hget, hfirst, hset⟩
        refine ⟨i + 1, by simpa using hi, by simpa using hget, ?_, ?_⟩
        · intro j hj
          cases j with
          | zero => simp
          | succ j0 =>
            simpa using hfirst j0 (by omega)
        · rw [← h, hset]
          simp

theorem countP_set_succ {s : List (Option Entity)} {i : Nat} {e : Entity}
    (h : s[i]? = some none) :
    (s.set i (some e)).countP (fun o => o.isNone) + 1 = s.countP (fun o => o.isNone) := by
  induction s generalizing i with
  | nil => simp at h
  | cons o t ih =>
    cases i with
    | zero =>
      simp at h
      subst h
      simp [List.countP_cons]
    | succ i0 =>
      simp at h
      have := ih h
      simp [List.countP_cons]
      omega

theorem insert_ok_spec {inv : Inventory} {e : Entity} {inv' : Inventory}
    (h : inv.insert e = .ok inv') :
    inv'.free_slots + 1 = inv.free_slots ∧ inv'.slots.length = inv.slots.length := by
  rw [Inventory.insert] at h
  cases hf : fillFirstFree inv.slots e with
  | none => rw [hf] at h; cases h
  | some s' =>
    rw [hf] at h
    injection h with h
    rcases fillFirstFree_some_spec hf with ⟨i, hi, hget, hfirst, hset⟩
    subst hset
    rw [← h]
    exact ⟨countP_set_succ hget, by simp⟩

theorem insert_error_of_full {inv : Inventory} {e : Entity}
    (h : inv.free_slots = 0) : inv.insert e = .error ⟨⟩ := by
  rw [Inventory.insert, (fillFirstFree_none_iff inv.slots e).mpr h]

theorem free_slots_new (c : Nat) : (Inventory.new c).free_slots = c := by
  induction c with
  | zero => rfl
  | succ n ih =>
    rw [Inventory.new, Inventory.free_slots] at ih ⊢
    rw [List.replicate_succ, List.countP_cons]
    simp at ih ⊢
    omega

theorem insertAll_ok {items : List Entity} :
    ∀ {inv : Inventory}, items.length ≤ inv.free_slots →
    ∃ inv', insertAll inv items = .ok inv' ∧
      inv'.free_slots = inv.free_slots - items.length ∧
      inv'.slots.length = inv.slots.length := by
  induction items with
  | nil =>
    intro inv h
    exact ⟨inv, rfl, by simp, rfl⟩
  | cons e rest ih =>
    intro inv h
    simp only [List.length_cons] at h
    cases hf : fillFirstFree inv.slots e with
    | none =>
      rw [fillFirstFree_none_iff] at hf
      rw [Inventory.free_slots] at h
      omega
    | some s' =>
      have hok : inv.insert e = .ok ⟨s'⟩ := by rw [Inventory.insert, hf]
      rcases insert_ok_spec hok with ⟨hfree, hlen⟩
      rcases @ih ⟨s'⟩ (by omega) with ⟨inv', hall, hfree', hlen'⟩
      refine ⟨inv', ?_, by simp only [List.length_cons]; omega, by rw [hlen', hlen]⟩
      rw [insertAll, hok]
      exact hall

theorem lt_length_of_getElem?_some {α : Type} {l : List α} {i : Nat} {v : α}
    (h : l[i]? = some v) : i < l.length := by
  by_contra hn
  rw [List.getElem?_eq_none (by omega)] at h
  cases h

theorem getElem?_set_of_lt {α : Type} (l : List α) (i : Nat) (v : α) (h : i < l.length) :
    (l.set i v)[i]? = some v := by
  induction l generalizing i with
  | nil => simp at h
  | cons a t ih =>
    cases i with
    | zero => simp
    | succ i0 => simpa using ih i0 (by simpa using h)

/-! ### Claim C8 -/

/-- C8: Inventory container: for every capacity C, C consecutive inserts
into a fresh inventory succeed and any further insert fails with
`InventoryIsFull`; insert always fills the first empty slot; removing a
valid occupied slot returns the stored entity and leaves the slot empty;
removing an empty or out-of-range slot fails with `InventorySlotIsEmpty`
(total, no fatal halt); insert and remove never change the slot count. -/
theorem inventory_spec :
    (∀ (capacity : Nat) (items : List Entity), items.length = capacity →
      ∃ inv', insertAll (Inventory.new capacity) items = .ok inv' ∧
        ∀ e, inv'.insert e = .error ⟨⟩) ∧
    (∀ (inv : Inventory) (e : Entity) (inv' : Inventory), inv.insert e = .ok inv' →
      ∃ i, i < inv.slots.length ∧ inv.slots[i]? = some none ∧
        (∀ j, j < i → inv.slots[j]? ≠ some none) ∧
        inv'.slots = inv.slots.set i (some e)) ∧
    (∀ (inv : Inventory) (i : Nat) (e : Entity), inv.slots[i]? = some (some e) →
      inv.remove i = .ok (e, ⟨inv.slots.set i none⟩) ∧
      (inv.slots.set i none)[i]? = some none) ∧
    (∀ (inv : Inventory) (i : Nat), inv.slots[i]? = some none ∨ inv.slots.length ≤ i →
      inv.remove i = .error ⟨⟩) ∧
    (∀ (inv : Inventory) (e : Entity) (inv' : Inventory), inv.insert e = .ok inv' →
      inv'.slots.length = inv.slots.length) ∧
    (∀ (inv : Inventory) (i : Nat) (e : Entity) (inv' : Inventory), inv.remove i = .ok (e, inv') →
      inv'.slots.length = inv.slots.length) := by
  refine ⟨?_, ?_, ?_, ?_, ?_, ?_⟩
  · intro capacity items hlen
    rcases @insertAll_ok items (Inventory.new capacity) (by rw [hlen, free_slots_new]) with
      ⟨inv', hall, hfree, hl⟩
    refine ⟨inv', hall, fun e => insert_error_of_full ?_⟩
    rw [hfree, free_slots_new, hlen]
    simp
  · intro inv e inv' h
    rw [Inventory.insert] at h
    cases hf : fillFirstFree inv.slots e with
    | none => rw [hf] at h; cases h
    | some s' =>
      rw [hf] at h
      injection h with h
      rcases fillFirstFree_some_spec hf with ⟨i, hi, hget, hfirst, hset⟩
      exact ⟨i, hi, hget, hfirst, by rw [← h, hset]⟩
  · intro inv i e h
    refine ⟨by rw [Inventory.remove, h], ?_⟩
    exact getElem?_set_of_lt _ i none (lt_length_of_getElem?_some h)
  · intro inv i hcase
    rcases hcase with hc | hc
    · rw [Inventory.remove, hc]
    · rw [Inventory.remove, List.getElem?_eq_none hc]
  · intro inv e inv' h
    exact (insert_ok_spec h).2
  · intro inv i e inv' h
    rw [Inventory.remove] at h
    cases hg : inv.slots[i]? with
    | none => rw [hg] at h; cases h
    | some o =>
      cases o with
      | none => rw [hg] at h; cases h
      | some e2 =>
        rw [hg] at h
        injection h with h
        have h2 : inv' = ⟨inv.slots.set i none⟩ := (congrArg Prod.snd h).symm
        rw [h2]
        simp

theorem inventory_spec_witness :
    (∃ inv', insertAll (Inventory.new 2) [5, 7] = .ok inv' ∧ ∀ e, inv'.insert e = .error ⟨⟩) ∧
    (Inventory.remove ⟨[some 5, some 7]⟩ 1 = .ok (7, ⟨[some 5, none]⟩) ∧
      ([some 5, some 7].set 1 none)[1]? = some none) ∧
    Inventory.remove ⟨[some 5, none]⟩ 1 = .error ⟨⟩ ∧
    Inventory.remove ⟨[some 5, none]⟩ 9 = .error ⟨⟩ :=
  ⟨inventory_spec.1 2 [5, 7] rfl,
   inventory_spec.2.2.1 ⟨[some 5, some 7]⟩ 1 7 (by decide),
   inventory_spec.2.2.2.1 ⟨[some 5, none]⟩ 1 (Or.inl (by decide)),
   inventory_spec.2.2.2.1 ⟨[some 5, none]⟩ 9 (Or.inr (by decide))⟩

/-! ### Claim C10 -/

/-- C10: using a slot holding a FireballScroll returns the Aim usage and
mutates nothing at all — the inventory slot is not consumed, no log entry
is appended and the world is returned unchanged; the empty-slot failure
branch likewise leaves the world unchanged, so the only world mutations
in maybe_use_item occur on the HealthPotion branch. -/
theorem fireball_scroll_use_is_pure (w : World) (character : Entity) (i : Nat)
    (log : List LogMessage) (inv : Inventory)
    (hinv : alFind w.components.inventory character = some inv) :
    (∀ item, inv.get i = .ok item →
      alFind w.components.item item = some ItemType.FireballScroll →
      w.maybe_use_item character i log = some (w, log, some ItemUsage.Aim)) ∧
    (inv.get i = .error ⟨⟩ →
      w.maybe_use_item character i log = some (w, log ++ [LogMessage.NoItemInInventorySlot], none)) := by
  constructor
  · intro item hget hit
    simp [World.maybe_use_item, hinv, hget, hit]
  · intro hget
    simp [World.maybe_use_item, hinv, hget]

theorem fireball_scroll_use_is_pure_witness :
    aimWorld.maybe_use_item 0 0 [] = some (aimWorld, [], some ItemUsage.Aim) :=
  (fireball_scroll_use_is_pure aimWorld 0 0 [] ⟨[some 1, none]⟩ rfl).1 1 rfl rfl

/-! ### Claim C3 -/

/-- C3 counterexample: with the player of `aimWorld` at the origin,
aiming at the player's own coordinate is rejected as a non-fatal failure
but appends no log entry (the claim demands exactly one); and referencing
the empty inventory slot 1 in maybe_use_item_aim halts fatally (`none`)
instead of surfacing a recoverable failure. -/
theorem self_aim_rejected_without_log :
    aimWorld.maybe_use_item_aim 0 0 ⟨0, 0⟩ [] = some (aimWorld, [], false) ∧
    aimWorld.maybe_use_item_aim 0 1 ⟨2, 2⟩ [] = none := by
  constructor <;> rfl

/-- C3 (amended): inventory full, empty slot referenced in maybe_use_item
or maybe_drop_item, no item on the ground, and no space to drop are
surfaced as explicit failure results accompanied by exactly one appended
log entry; the invalid self-targeted aim is surfaced as an explicit
failure result but appends no log entry; and in maybe_use_item_aim an
empty inventory slot is a fatal precondition violation, not a
caller-recoverable outcome. -/
theorem recoverable_outcomes_amended :
    (∀ (w : World) (ch : Entity) (log : List LogMessage) (c : Coord) (obj : Entity)
        (it : ItemType) (inv : Inventory),
      w.spatial_table.coord_of ch = some c →
      (w.spatial_table.layers_at_checked c).object = some obj →
      alFind w.components.item obj = some it →
      alFind w.components.inventory ch = some inv →
      inv.free_slots = 0 →
      w.maybe_get_item ch log = some (w, log ++ [LogMessage.PlayerInventoryIsFull], false)) ∧
    (∀ (w : World) (ch : Entity) (log : List LogMessage) (c : Coord),
      w.spatial_table.coord_of ch = some c →
      (w.spatial_table.layers_at_checked c).object = none →
      w.maybe_get_item ch log = some (w, log ++ [LogMessage.NoItemUnderPlayer], false)) ∧
    (∀ (w : World) (ch : Entity) (i : Nat) (log : List LogMessage) (inv : Inventory),
      alFind w.components.inventory ch = some inv →
      inv.get i = .error ⟨⟩ →
      w.maybe_use_item ch i log = some (w, log ++ [LogMessage.NoItemInInventorySlot], none)) ∧
    (∀ (w : World) (ch : Entity) (i : Nat) (log : List LogMessage) (c : Coord),
      w.spatial_table.coord_of ch = some c →
      ((w.spatial_table.layers_at_checked c).object).isSome →
      w.maybe_drop_item ch i log = some (w, log ++ [LogMessage.NoSpaceToDropItem], false)) ∧
    (∀ (w : World) (ch : Entity) (i : Nat) (log : List LogMessage) (c : Coord) (inv : Inventory),
      w.spatial_table.coord_of ch = some c →
      (w.spatial_table.layers_at_checked c).object = none →
      alFind w.components.inventory ch = some inv →
      inv.remove i = .error ⟨⟩ →
      w.maybe_drop_item ch i log = some (w, log ++ [LogMessage.NoItemInInventorySlot], false)) ∧
    (∀ (w : World) (ch : Entity) (i : Nat) (log : List LogMessage) (t : Coord) (c : Coord),
      w.spatial_table.coord_of ch = some c →
      t = c →
      w.maybe_use_item_aim ch i t log = some (w, log, false)) ∧
    (∀ (w : World) (ch : Entity) (i : Nat) (log : List LogMessage) (t : Coord) (c : Coord)
        (inv : Inventory),
      w.spatial_table.coord_of ch = some c →
      t ≠ c →
      alFind w.components.inventory ch = some inv →
      inv.remove i = .error ⟨⟩ →
      w.maybe_use_item_aim ch i t log = none) := by
  refine ⟨?_, ?_, ?_, ?_, ?_, ?_, ?_⟩
  · intro w ch log c obj it inv hc hobj hit hinv hfull
    simp [World.maybe_get_item, hc, hobj, hit, hinv, insert_error_of_full hfull]
  · intro w ch log c hc hobj
    simp [World.maybe_get_item, hc, hobj]
  · intro w ch i log inv hinv hget
    simp [World.maybe_use_item, hinv, hget]
  · intro w ch i log c hc hobj
    simp [World.maybe_drop_item, hc, hobj]
  · intro w ch i log c inv hc hobj hinv hrem
    simp [World.maybe_drop_item, hc, hobj, hinv, hrem]
  · intro w ch i log t c hc ht
    subst ht
    simp [World.maybe_use_item_aim, hc]
  · intro w ch i log t c inv hc ht hinv hrem
    simp [World.maybe_use_item_aim, hc, Ne.symm ht, hinv, hrem]

theorem recoverable_outcomes_amended_witness :
    fullInvWorld.maybe_get_item 0 [] = some (fullInvWorld, [LogMessage.PlayerInventoryIsFull], false) ∧
    aimWorld.maybe_get_item 0 [] = some (aimWorld, [LogMessage.NoItemUnderPlayer], false) ∧
    aimWorld.maybe_use_item 0 1 [] = some (aimWorld, [LogMessage.NoItemInInventorySlot], none) ∧
    fullInvWorld.maybe_drop_item 0 0 [] = some (fullInvWorld, [LogMessage.NoSpaceToDropItem], false) ∧
    aimWorld.maybe_drop_item 0 1 [] = some (aimWorld, [LogMessage.NoItemInInventorySlot], false) ∧
    aimWorld.maybe_use_item_aim 0 0 ⟨0, 0⟩ [] = some (aimWorld, [], false) ∧
    aimWorld.maybe_use_item_aim 0 1 ⟨2, 2⟩ [] = none :=
  ⟨recoverable_outcomes_amended.1 fullInvWorld 0 [] ⟨0, 0⟩ 1 ItemType.HealthPotion ⟨[some 2]⟩
      rfl rfl rfl rfl rfl,
   recoverable_outcomes_amended.2.1 aimWorld 0 [] ⟨0, 0⟩ rfl rfl,
   recoverable_outcomes_amended.2.2.1 aimWorld 0 1 [] ⟨[some 1, none]⟩ rfl rfl,
   recoverable_outcomes_amended.2.2.2.1 fullInvWorld 0 0 [] ⟨0, 0⟩ rfl rfl,
   recoverable_outcomes_amended.2.2.2.2.1 aimWorld 0 1 [] ⟨0, 0⟩ ⟨[some 1, none]⟩ rfl rfl rfl rfl,
   recoverable_outcomes_amended.2.2.2.2.2.1 aimWorld 0 0 [] ⟨0, 0⟩ ⟨0, 0⟩ rfl rfl,
   recoverable_outcomes_amended.2.2.2.2.2.2 aimWorld 0 1 [] ⟨2, 2⟩ ⟨0, 0⟩ ⟨[some 1, none]⟩
      rfl (by decide) rfl rfl⟩

/-! ### Claim C7 -/

/-- C7: maybe_drop_item fails with a NoSpaceToDropItem log entry when the
character's coordinate already has an Object-layer occupant, leaving the
whole world (hence the inventory) unchanged; fails with a
NoItemInInventorySlot log entry when the slot is empty; and otherwise
places the removed item entity at the character's coordinate on the
Object layer and logs PlayerDrops. -/
theorem maybe_drop_item_spec (w : World) (ch : Entity) (i : Nat) (log : List LogMessage)
    (c : Coord) (hc : w.spatial_table.coord_of ch = some c) :
    (∀ obj : Entity, (w.spatial_table.layers_at_checked c).object = some obj →
      w.maybe_drop_item ch i log = some (w, log ++ [LogMessage.NoSpaceToDropItem], false)) ∧
    (∀ inv : Inventory, (w.spatial_table.layers_at_checked c).object = none →
      alFind w.components.inventory ch = some inv →
      inv.remove i = .error ⟨⟩ →
      w.maybe_drop_item ch i log = some (w, log ++ [LogMessage.NoItemInInventorySlot], false)) ∧
    (∀ (inv : Inventory) (item : Entity) (inv2 : Inventory) (it : ItemType),
      (w.spatial_table.layers_at_checked c).object = none →
      alFind w.components.inventory ch = some inv →
      inv.remove i = .ok (item, inv2) →
      alFind w.components.item item = some it →
      ∃ w', w.maybe_drop_item ch i log = some (w', log ++ [LogMessage.PlayerDrops it], true) ∧
        alFind w'.components.inventory ch = some inv2 ∧
        w'.spatial_table.coord_of item = some c ∧
        w'.spatial_table.layer_of item = some Layer.Object ∧
        w'.components.item = w.components.item ∧
        w'.components.hit_points = w.components.hit_points) := by
  refine ⟨?_, ?_, ?_⟩
  · intro obj hobj
    simp [World.maybe_drop_item, hc, hobj]
  · intro inv hobj hinv hrem
    simp [World.maybe_drop_item, hc, hobj, hinv, hrem]
  · intro inv item inv2 it hobj hinv hrem hit
    have hocc : w.spatial_table.occupant c Layer.Object = none := hobj
    refine ⟨{ w with
        components := { w.components with inventory := alInsert w.components.inventory ch inv2 }
        spatial_table := { grid_size := w.spatial_table.grid_size
                           locs := alInsert w.spatial_table.locs item ⟨c, some Layer.Object⟩ } },
      ?_, ?_, ?_, ?_, rfl, rfl⟩
    · simp [World.maybe_drop_item, hc, hobj, hinv, hrem, hit, SpatialTable.update, hocc]
    · exact alFind_insert_self _ _ _
    · show ((alFind (alInsert w.spatial_table.locs item ⟨c, some Layer.Object⟩) item).map Location.coord) = some c
      rw [alFind_insert_self]
      rfl
    · show ((alFind (alInsert w.spatial_table.locs item ⟨c, some Layer.Object⟩) item).bind Location.layer) = some Layer.Object
      rw [alFind_insert_self]
      rfl

theorem maybe_drop_item_spec_witness :
    ∃ w', aimWorld.maybe_drop_item 0 0 [] =
        some (w', [LogMessage.PlayerDrops ItemType.FireballScroll], true) ∧
      alFind w'.components.inventory 0 = some ⟨[none, none]⟩ ∧
      w'.spatial_table.coord_of 1 = some ⟨0, 0⟩ ∧
      w'.spatial_table.layer_of 1 = some Layer.Object ∧
      w'.components.item = aimWorld.components.item ∧
      w'.components.hit_points = aimWorld.components.hit_points :=
  (maybe_drop_item_spec aimWorld 0 0 [] ⟨0, 0⟩ rfl).2.2 ⟨[some 1, none]⟩ 1 ⟨[none, none]⟩
    ItemType.FireballScroll rfl rfl rfl rfl

/-! ### The death transition -/

theorem character_die_spec_lemma {w : World} {e : Entity} {c : Coord}
    (hok : w.spatial_table.Ok)
    (hloc : alFind w.spatial_table.locs e = some ⟨c, some Layer.Character⟩)
    (htile : alFind w.components.tile e = some Tile.Player ∨
      ∃ n, alFind w.components.tile e = some (Tile.Npc n)) :
    ∃ w', w.character_die e = some w' ∧
      alFind w'.spatial_table.locs e = some ⟨c, some Layer.Object⟩ ∧
      alFind w'.components.hit_points e = alFind w.components.hit_points e ∧
      (alFind w.components.tile e = some Tile.Player →
        alFind w'.components.tile e = some Tile.PlayerCorpse) ∧
      (∀ n, alFind w.components.tile e = some (Tile.Npc n) →
        alFind w'.components.tile e = some (Tile.NpcCorpse n)) ∧
      (∀ occ, w.spatial_table.occupant c Layer.Object = some occ →
        alFind w'.spatial_table.locs occ = none ∧
        alFind w'.components.tile occ = none ∧
        alFind w'.components.item occ = none) := by
  have hul : w.spatial_table.update_layer e Layer.Object =
      some (w.spatial_table.update e ⟨c, some Layer.Object⟩) := by
    rw [SpatialTable.update_layer, hloc]
    rfl
  cases hocc : w.spatial_table.occupant c Layer.Object with
  | none =>
    have hupd : w.spatial_table.update e ⟨c, some Layer.Object⟩ =
        .ok ⟨w.spatial_table.grid_size, alInsert w.spatial_table.locs e ⟨c, some Layer.Object⟩⟩ := by
      rw [SpatialTable.update]
      simp [hocc]
    have hspat : ∀ ct : Tile,
        alFind (alInsert w.spatial_table.locs e ⟨c, some Layer.Object⟩) e =
          some ⟨c, some Layer.Object⟩ :=
      fun _ => alFind_insert_self _ _ _
    rcases htile with hp | ⟨n, hp⟩
    · refine ⟨{ w with
          components := { w.components with tile := alInsert w.components.tile e Tile.PlayerCorpse },
          spatial_table := ⟨w.spatial_table.grid_size,
            alInsert w.spatial_table.locs e ⟨c, some Layer.Object⟩⟩ },
        ?_, alFind_insert_self _ _ _, rfl, fun _ => alFind_insert_self _ _ _, ?_, ?_⟩
      · simp [World.character_die, hul, hupd, hp]
      · intro n0 hn0
        rw [hp] at hn0
        cases hn0
      · intro occ hocc2
        cases hocc2
    · refine ⟨{ w with
          components := { w.components with tile := alInsert w.components.tile e (Tile.NpcCorpse n) },
          spatial_table := ⟨w.spatial_table.grid_size,
            alInsert w.spatial_table.locs e ⟨c, some Layer.Object⟩⟩ },
        ?_, alFind_insert_self _ _ _, rfl, ?_, ?_, ?_⟩
      · simp [World.character_die, hul, hupd, hp]
      · intro hpl
        rw [hp] at hpl
        cases hpl
      · intro n0 hn0
        rw [hp] at hn0
        injection hn0 with hn0
        injection hn0 with hn0
        subst hn0
        exact alFind_insert_self _ _ _
      · intro occ hocc2
        cases hocc2
  | some occ =>
    have hocc_ne : occ ≠ e := by
      intro he
      subst he
      rcases occupant_eq_some hocc with ⟨loc', hmem, hcoord, hlayer⟩
      have hfind := alFind_eq_of_mem hok.1 hmem
      rw [hloc] at hfind
      injection hfind with hfind
      rw [← hfind] at hlayer
      cases hlayer
    have hupd : w.spatial_table.update e ⟨c, some Layer.Object⟩ = .error occ := by
      rw [SpatialTable.update]
      simp [hocc, hocc_ne]
    have hloc2 : alFind (alErase w.spatial_table.locs occ) e =
        some ⟨c, some Layer.Character⟩ := by
      rw [alFind_erase_ne _ _ _ (Ne.symm hocc_ne)]
      exact hloc
    have hul2 : SpatialTable.update_layer
        ⟨w.spatial_table.grid_size, alErase w.spatial_table.locs occ⟩ e Layer.Object =
        some (SpatialTable.update
          ⟨w.spatial_table.grid_size, alErase w.spatial_table.locs occ⟩ e
          ⟨c, some Layer.Object⟩) := by
      rw [SpatialTable.update_layer]
      show (alFind (alErase w.spatial_table.locs occ) e).map _ = _
      rw [hloc2]
      rfl
    have hocc2 : SpatialTable.occupant
        ⟨w.spatial_table.grid_size, alErase w.spatial_table.locs occ⟩ c Layer.Object = none := by
      rw [occupant_eq_none_iff]
      exact countP_erase_eq_zero_of_occupant (hok.2 c Layer.Object) hocc
    have hupd2 : SpatialTable.update
        ⟨w.spatial_table.grid_size, alErase w.spatial_table.locs occ⟩ e ⟨c, some Layer.Object⟩ =
        .ok ⟨w.spatial_table.grid_size,
          alInsert (alErase w.spatial_table.locs occ) e ⟨c, some Layer.Object⟩⟩ := by
      rw [SpatialTable.update]
      simp [hocc2]
    have htile2 : alFind (alErase w.components.tile occ) e = alFind w.components.tile e :=
      alFind_erase_ne _ _ _ (Ne.symm hocc_ne)
    rcases htile with hp | ⟨n, hp⟩
    · refine ⟨⟨w.entity_allocator, ⟨alInsert (alErase w.components.tile occ) e Tile.PlayerCorpse, alErase w.components.npc_type occ, alErase w.components.hit_points occ, alErase w.components.item occ, alErase w.components.inventory occ, alErase w.components.trajectory occ, alErase w.components.projectile occ⟩, ⟨w.spatial_table.grid_size, alInsert (alErase w.spatial_table.locs occ) e ⟨c, some Layer.Object⟩⟩⟩, ?_, alFind_insert_self _ _ _, alFind_erase_ne _ _ _ (Ne.symm hocc_ne), fun _ => alFind_insert_self _ _ _, ?_, ?_⟩
      · simp [World.character_die, hul, hupd, World.remove_entity, Components.remove_entity,
          SpatialTable.remove, hul2, hupd2, htile2, hp]
      · intro n0 hn0
        rw [hp] at hn0
        cases hn0
      · intro occ2 hocc3
        injection hocc3 with hocc3
        subst hocc3
        refine ⟨?_, ?_, alFind_erase_self _ _⟩
        · rw [alFind_insert_ne _ _ _ _ hocc_ne]
          exact alFind_erase_self _ _
        · rw [alFind_insert_ne _ _ _ _ hocc_ne]
          exact alFind_erase_self _ _
    · refine ⟨⟨w.entity_allocator, ⟨alInsert (alErase w.components.tile occ) e (Tile.NpcCorpse n), alErase w.components.npc_type occ, alErase w.components.hit_points occ, alErase w.components.item occ, alErase w.components.inventory occ, alErase w.components.trajectory occ, alErase w.components.projectile occ⟩, ⟨w.spatial_table.grid_size, alInsert (alErase w.spatial_table.locs occ) e ⟨c, some Layer.Object⟩⟩⟩, ?_, alFind_insert_self _ _ _, alFind_erase_ne _ _ _ (Ne.symm hocc_ne), ?_, ?_, ?_⟩
      · simp [World.character_die, hul, hupd, World.remove_entity, Components.remove_entity,
          SpatialTable.remove, hul2, hupd2, htile2, hp]
      · intro hpl
        rw [hp] at hpl
        cases hpl
      · intro n0 hn0
        rw [hp] at hn0
        injection hn0 with hn0
        injection hn0 with hn0
        subst hn0
        exact alFind_insert_self _ _ _
      · intro occ2 hocc3
        injection hocc3 with hocc3
        subst hocc3
        refine ⟨?_, ?_, alFind_erase_self _ _⟩
        · rw [alFind_insert_ne _ _ _ _ hocc_ne]
          exact alFind_erase_self _ _
        · rw [alFind_insert_ne _ _ _ _ hocc_ne]
          exact alFind_erase_self _ _

theorem character_damage_no_hp {w : World} {v : Entity} {d : Nat}
    (h : alFind w.components.hit_points v = none) :
    w.character_damage v d = some (w, false) := by
  simp [World.character_damage, h]

theorem character_damage_nonlethal {w : World} {v : Entity} {d cur mx : Nat}
    (hhp : alFind w.components.hit_points v = some ⟨cur, mx⟩) (hlt : d < cur) :
    w.character_damage v d = some ({ w with components := { w.components with
      hit_points := alInsert w.components.hit_points v ⟨cur - d, mx⟩ } }, false) := by
  simp [World.character_damage, hhp, Nat.sub_ne_zero_of_lt hlt]

theorem character_damage_lethal {w : World} {v : Entity} {d cur mx : Nat} {c : Coord}
    (hok : w.spatial_table.Ok)
    (hhp : alFind w.components.hit_points v = some ⟨cur, mx⟩)
    (hpos : 0 < cur) (hled : cur ≤ d)
    (hloc : alFind w.spatial_table.locs v = some ⟨c, some Layer.Character⟩)
    (htile : alFind w.components.tile v = some Tile.Player ∨
      ∃ n, alFind w.components.tile v = some (Tile.Npc n)) :
    ∃ w', w.character_damage v d = some (w', true) ∧
      w'.is_living_character v = false ∧
      w'.spatial_table.layer_of v = some Layer.Object ∧
      w'.spatial_table.coord_of v = some c ∧
      alFind w'.components.hit_points v = some ⟨0, mx⟩ := by
  have hz : cur - d = 0 := Nat.sub_eq_zero_of_le hled
  rcases @character_die_spec_lemma
      { w with components := { w.components with
        hit_points := alInsert w.components.hit_points v ⟨cur - d, mx⟩ } }
      v c hok hloc htile with ⟨w2, hdie, hlocs2, hhp2, _, _, _⟩
  rw [hz] at hdie
  refine ⟨w2, ?_, ?_, ?_, ?_, ?_⟩
  · simp [World.character_damage, hhp, hz, hdie]
  · rw [World.is_living_character]
    simp only [SpatialTable.layer_of, hlocs2]
    rfl
  · simp only [SpatialTable.layer_of, hlocs2]
    rfl
  · simp only [SpatialTable.coord_of, hlocs2]
    rfl
  · rw [hhp2]
    show alFind (alInsert w.components.hit_points v ⟨cur - d, mx⟩) v = some ⟨0, mx⟩
    rw [alFind_insert_self, hz]

theorem character_die_fatal_tile {w : World} {e : Entity} {c : Coord}
    (hok : w.spatial_table.Ok)
    (hloc : alFind w.spatial_table.locs e = some ⟨c, some Layer.Character⟩)
    (htile : ∀ tl, alFind w.components.tile e = some tl →
      tl ≠ Tile.Player ∧ ∀ n, tl ≠ Tile.Npc n) :
    w.character_die e = none := by
  have hul : w.spatial_table.update_layer e Layer.Object =
      some (w.spatial_table.update e ⟨c, some Layer.Object⟩) := by
    rw [SpatialTable.update_layer, hloc]
    rfl
  cases hocc : w.spatial_table.occupant c Layer.Object with
  | none =>
    have hupd : w.spatial_table.update e ⟨c, some Layer.Object⟩ =
        .ok ⟨w.spatial_table.grid_size, alInsert w.spatial_table.locs e ⟨c, some Layer.Object⟩⟩ := by
      rw [SpatialTable.update]
      simp [hocc]
    cases hft : alFind w.components.tile e with
    | none => simp [World.character_die, hul, hupd, hft]
    | some tl =>
      have hne := htile tl hft
      cases tl <;> simp [World.character_die, hul, hupd, hft]
      · exact absurd rfl hne.1
      · rename_i n
        exact absurd rfl (hne.2 n)
  | some occ =>
    have hocc_ne : occ ≠ e := by
      intro he
      subst he
      rcases occupant_eq_some hocc with ⟨loc', hmem, hcoord, hlayer⟩
      have hfind := alFind_eq_of_mem hok.1 hmem
      rw [hloc] at hfind
      injection hfind with hfind
      rw [← hfind] at hlayer
      cases hlayer
    have hupd : w.spatial_table.update e ⟨c, some Layer.Object⟩ = .error occ := by
      rw [SpatialTable.update]
      simp [hocc, hocc_ne]
    have hloc2 : alFind (alErase w.spatial_table.locs occ) e =
        some ⟨c, some Layer.Character⟩ := by
      rw [alFind_erase_ne _ _ _ (Ne.symm hocc_ne)]
      exact hloc
    have hul2 : SpatialTable.update_layer
        ⟨w.spatial_table.grid_size, alErase w.spatial_table.locs occ⟩ e Layer.Object =
        some (SpatialTable.update
          ⟨w.spatial_table.grid_size, alErase w.spatial_table.locs occ⟩ e
          ⟨c, some Layer.Object⟩) := by
      rw [SpatialTable.update_layer]
      show (alFind (alErase w.spatial_table.locs occ) e).map _ = _
      rw [hloc2]
      rfl
    have hocc2 : SpatialTable.occupant
        ⟨w.spatial_table.grid_size, alErase w.spatial_table.locs occ⟩ c Layer.Object = none := by
      rw [occupant_eq_none_iff]
      exact countP_erase_eq_zero_of_occupant (hok.2 c Layer.Object) hocc
    have hupd2 : SpatialTable.update
        ⟨w.spatial_table.grid_size, alErase w.spatial_table.locs occ⟩ e ⟨c, some Layer.Object⟩ =
        .ok ⟨w.spatial_table.grid_size,
          alInsert (alErase w.spatial_table.locs occ) e ⟨c, some Layer.Object⟩⟩ := by
      rw [SpatialTable.update]
      simp [hocc2]
    have htile2 : alFind (alErase w.components.tile occ) e = alFind w.components.tile e :=
      alFind_erase_ne _ _ _ (Ne.symm hocc_ne)
    cases hft : alFind w.components.tile e with
    | none =>
      simp [World.character_die, hul, hupd, World.remove_entity, Components.remove_entity,
        SpatialTable.remove, hul2, hupd2, htile2, hft]
    | some tl =>
      have hne := htile tl hft
      cases tl <;> simp [World.character_die, hul, hupd, World.remove_entity,
        Components.remove_entity, SpatialTable.remove, hul2, hupd2, htile2, hft]
      · exact absurd rfl hne.1
      · rename_i n
        exact absurd rfl (hne.2 n)

/-! ### Claim C6 -/

/-- C6: character_die — when the dying character's coordinate already has
an Object-layer occupant, that occupant is destroyed (removed from the
attribute tables and the spatial index) and the corpse placement onto the
Object layer is retried and succeeds; the Tile attribute is rewritten
Player → PlayerCorpse or Npc(k) → NpcCorpse(k), any other Tile value
being fatal; afterwards the entity is no longer on the Character layer,
so is_living_character returns false. -/
theorem character_die_full_spec (w : World) (e : Entity) (c : Coord)
    (hok : w.spatial_table.Ok)
    (hloc : alFind w.spatial_table.locs e = some ⟨c, some Layer.Character⟩) :
    (∀ tl, alFind w.components.tile e = some tl →
      (tl = Tile.Player ∨ ∃ n, tl = Tile.Npc n) →
      ∃ w', w.character_die e = some w' ∧
        w'.is_living_character e = false ∧
        w'.spatial_table.layer_of e = some Layer.Object ∧
        (tl = Tile.Player → alFind w'.components.tile e = some Tile.PlayerCorpse) ∧
        (∀ n, tl = Tile.Npc n → alFind w'.components.tile e = some (Tile.NpcCorpse n)) ∧
        (∀ occ, w.spatial_table.occupant c Layer.Object = some occ →
          alFind w'.spatial_table.locs occ = none ∧
          alFind w'.components.tile occ = none ∧
          alFind w'.components.item occ = none)) ∧
    (∀ tl, alFind w.components.tile e = some tl →
      tl ≠ Tile.Player → (∀ n, tl ≠ Tile.Npc n) →
      w.character_die e = none) := by
  constructor
  · intro tl hft hkind
    have htile : alFind w.components.tile e = some Tile.Player ∨
        ∃ n, alFind w.components.tile e = some (Tile.Npc n) := by
      rcases hkind with h1 | ⟨n, h1⟩
      · exact Or.inl (h1 ▸ hft)
      · exact Or.inr ⟨n, h1 ▸ hft⟩
    rcases character_die_spec_lemma hok hloc htile with
      ⟨w', hdie, hlocs, hhp, hpl, hnpc, hocc⟩
    refine ⟨w', hdie, ?_, ?_, ?_, ?_, hocc⟩
    · rw [World.is_living_character]
      simp only [SpatialTable.layer_of, hlocs]
      rfl
    · simp only [SpatialTable.layer_of, hlocs]
      rfl
    · intro h1
      exact hpl (h1 ▸ hft)
    · intro n h1
      exact hnpc n (h1 ▸ hft)
  · intro tl hft h1 h2
    exact character_die_fatal_tile hok hloc
      (fun tl0 hft0 => by
        rw [hft] at hft0
        injection hft0 with hft0
        subst hft0
        exact ⟨h1, h2⟩)

theorem character_die_full_spec_witness :
    ∃ w', dieWorld.character_die 0 = some w' ∧
      w'.is_living_character 0 = false ∧
      w'.spatial_table.layer_of 0 = some Layer.Object ∧
      (Tile.Npc NpcType.Orc = Tile.Player →
        alFind w'.components.tile 0 = some Tile.PlayerCorpse) ∧
      (∀ n, Tile.Npc NpcType.Orc = Tile.Npc n →
        alFind w'.components.tile 0 = some (Tile.NpcCorpse n)) ∧
      (∀ occ, dieWorld.spatial_table.occupant ⟨1, 1⟩ Layer.Object = some occ →
        alFind w'.spatial_table.locs occ = none ∧
        alFind w'.components.tile occ = none ∧
        alFind w'.components.item occ = none) :=
  (character_die_full_spec dieWorld 0 ⟨1, 1⟩ (SpatialTable.okB_ok (by decide)) rfl).1
    (Tile.Npc NpcType.Orc) rfl (Or.inr ⟨NpcType.Orc, rfl⟩)

theorem Inventory.remove_of_get {inv : Inventory} {i : Nat} {item : Entity}
    (h : inv.get i = .ok item) : inv.remove i = .ok (item, ⟨inv.slots.set i none⟩) := by
  rw [Inventory.get] at h
  rw [Inventory.remove]
  cases hg : inv.slots[i]? with
  | none => rw [hg] at h; cases h
  | some o =>
    cases o with
    | none => rw [hg] at h; cases h
    | some e2 =>
      rw [hg] at h
      injection h with h
      subst h
      rfl

/-! ### Claim C2 -/

/-- C2: Hit points — in every reachable state, `current ≤ max` for every
entity holding the attribute; damage sets the current value to the
truncated difference (so it floors at zero and never goes negative);
healing through a HealthPotion caps the current value at max; damage
equal to or exceeding the positive current value yields the death flag
and exactly one death transition, removing the victim from the living
characters, while smaller damage yields no death transition. -/
theorem hit_point_invariants :
    (∀ w : World, Reachable w → ∀ e hp, w.hit_points e = some hp → hp.current ≤ hp.max) ∧
    (∀ (w : World) (v : Entity) (d cur mx : Nat),
      alFind w.components.hit_points v = some ⟨cur, mx⟩ → d < cur →
      w.character_damage v d = some ({ w with components := { w.components with
        hit_points := alInsert w.components.hit_points v ⟨cur - d, mx⟩ } }, false)) ∧
    (∀ (w : World) (ch : Entity) (i : Nat) (log : List LogMessage) (inv : Inventory)
        (item : Entity) (cur mx : Nat),
      alFind w.components.inventory ch = some inv →
      inv.get i = .ok item →
      alFind w.components.item item = some ItemType.HealthPotion →
      alFind w.components.hit_points ch = some ⟨cur, mx⟩ →
      ∃ w', w.maybe_use_item ch i log =
          some (w', log ++ [LogMessage.PlayerHeals], some ItemUsage.Immediate) ∧
        w'.hit_points ch = some ⟨min mx (cur + 5), mx⟩ ∧
        min mx (cur + 5) ≤ mx) ∧
    (∀ (w : World) (v : Entity) (d cur mx : Nat) (c : Coord),
      w.spatial_table.Ok →
      alFind w.components.hit_points v = some ⟨cur, mx⟩ →
      0 < cur → cur ≤ d →
      alFind w.spatial_table.locs v = some ⟨c, some Layer.Character⟩ →
      (alFind w.components.tile v = some Tile.Player ∨
        ∃ n, alFind w.components.tile v = some (Tile.Npc n)) →
      ∃ w', w.character_damage v d = some (w', true) ∧
        w'.is_living_character v = false ∧
        alFind w'.components.hit_points v = some ⟨0, mx⟩) := by
  refine ⟨?_, ?_, ?_, ?_⟩
  · intro w hr e hp hf
    exact (reachable_Ok hr).2 e hp hf
  · intro w v d cur mx hhp hlt
    exact character_damage_nonlethal hhp hlt
  · intro w ch i log inv item cur mx hinv hget hit hhp
    have hrem := Inventory.remove_of_get hget
    refine ⟨{ w with components := { w.components with
        hit_points := alInsert w.components.hit_points ch ⟨min mx (cur + 5), mx⟩,
        inventory := alInsert w.components.inventory ch ⟨inv.slots.set i none⟩ } },
      ?_, ?_, Nat.min_le_left _ _⟩
    · simp [World.maybe_use_item, hinv, hget, hit, hhp, hrem]
    · exact alFind_insert_self _ _ _
  · intro w v d cur mx c hok hhp hpos hled hloc htile
    rcases character_damage_lethal hok hhp hpos hled hloc htile with
      ⟨w', hd, hliving, _, _, hhp'⟩
    exact ⟨w', hd, hliving, hhp'⟩

theorem hit_point_invariants_witness :
    (20 ≤ 20) ∧
    dieWorld.character_damage 0 0 = some ({ dieWorld with components := { dieWorld.components with
      hit_points := alInsert dieWorld.components.hit_points 0 ⟨1 - 0, 2⟩ } }, false) ∧
    (∃ w', potWorld.maybe_use_item 0 0 [] =
        some (w', [LogMessage.PlayerHeals], some ItemUsage.Immediate) ∧
      w'.hit_points 0 = some ⟨min 20 (12 + 5), 20⟩ ∧
      min 20 (12 + 5) ≤ 20) ∧
    (∃ w', dieWorld.character_damage 0 5 = some (w', true) ∧
      w'.is_living_character 0 = false ∧
      alFind w'.components.hit_points 0 = some ⟨0, 2⟩) :=
  ⟨hit_point_invariants.1 demoWorld
      (Reachable.populate demoTerrain (Reachable.new ⟨3, 2⟩) rfl) 1 ⟨20, 20⟩ rfl,
   hit_point_invariants.2.1 dieWorld 0 0 1 2 rfl (by decide),
   hit_point_invariants.2.2.1 potWorld 0 0 [] ⟨[some 1]⟩ 1 12 20 rfl rfl rfl rfl,
   hit_point_invariants.2.2.2 dieWorld 0 5 1 2 ⟨1, 1⟩ (SpatialTable.okB_ok (by decide))
      rfl (by decide) (by decide) rfl (Or.inr ⟨NpcType.Orc, rfl⟩)⟩

theorem write_combat_log_length (a v : Bool) (n : NpcType) (log : List LogMessage) :
    (write_combat_log_messages a v n log).length = log.length + 1 := by
  rw [write_combat_log_messages]
  cases a <;> cases v <;> simp

/-! ### Claim C4 -/

/-- C4: maybe_move_character — an out-of-bounds destination is a no-op; a
bump into an occupied Character layer resolves as an attack dealing a
fixed 1 damage with exactly one combat log entry if and only if exactly
one of mover and occupant holds the NpcType attribute, with NPC-vs-NPC
and player-vs-player bumps changing nothing and appending nothing;
otherwise the mover's coordinate is updated exactly when the Feature
layer of the destination is empty. -/
theorem maybe_move_character_cases (w : World) (ch : Entity) (d : CardinalDirection)
    (log : List LogMessage) (c : Coord)
    (hloc : alFind w.spatial_table.locs ch = some ⟨c, some Layer.Character⟩) :
    (¬((c + d.coord).is_valid w.spatial_table.grid_size = true) →
      w.maybe_move_character ch d log = some (w, log)) ∧
    (∀ occ : Entity, (c + d.coord).is_valid w.spatial_table.grid_size = true →
      w.spatial_table.occupant (c + d.coord) Layer.Character = some occ →
      (alFind w.components.npc_type ch).isSome = (alFind w.components.npc_type occ).isSome →
      w.maybe_move_character ch d log = some (w, log)) ∧
    (∀ (occ : Entity) (cur mx : Nat), (c + d.coord).is_valid w.spatial_table.grid_size = true →
      w.spatial_table.occupant (c + d.coord) Layer.Character = some occ →
      (alFind w.components.npc_type ch).isSome ≠ (alFind w.components.npc_type occ).isSome →
      alFind w.components.hit_points occ = some ⟨cur, mx⟩ → 1 < cur →
      ∃ n, (alFind w.components.npc_type ch = some n ∨ alFind w.components.npc_type occ = some n) ∧
        w.maybe_move_character ch d log = some
          ({ w with components := { w.components with
              hit_points := alInsert w.components.hit_points occ ⟨cur - 1, mx⟩ } },
            write_combat_log_messages (alFind w.components.npc_type ch).isNone false n log) ∧
        (write_combat_log_messages (alFind w.components.npc_type ch).isNone false n log).length =
          log.length + 1) ∧
    (∀ (occ : Entity) (mx : Nat), (c + d.coord).is_valid w.spatial_table.grid_size = true →
      w.spatial_table.occupant (c + d.coord) Layer.Character = some occ →
      (alFind w.components.npc_type ch).isSome ≠ (alFind w.components.npc_type occ).isSome →
      alFind w.components.hit_points occ = some ⟨1, mx⟩ →
      w.spatial_table.Ok →
      (alFind w.components.tile occ = some Tile.Player ∨
        ∃ n0, alFind w.components.tile occ = some (Tile.Npc n0)) →
      ∃ n w', (alFind w.components.npc_type ch = some n ∨ alFind w.components.npc_type occ = some n) ∧
        w.maybe_move_character ch d log = some
          (w', write_combat_log_messages (alFind w.components.npc_type ch).isNone true n log) ∧
        w'.is_living_character occ = false) ∧
    (∀ feat : Entity, (c + d.coord).is_valid w.spatial_table.grid_size = true →
      w.spatial_table.occupant (c + d.coord) Layer.Character = none →
      w.spatial_table.occupant (c + d.coord) Layer.Feature = some feat →
      w.maybe_move_character ch d log = some (w, log)) ∧
    ((c + d.coord).is_valid w.spatial_table.grid_size = true →
      w.spatial_table.occupant (c + d.coord) Layer.Character = none →
      w.spatial_table.occupant (c + d.coord) Layer.Feature = none →
      w.maybe_move_character ch d log = some
        ({ w with spatial_table := ⟨w.spatial_table.grid_size,
            alInsert w.spatial_table.locs ch ⟨c + d.coord, some Layer.Character⟩⟩ }, log) ∧
      SpatialTable.coord_of ⟨w.spatial_table.grid_size,
          alInsert w.spatial_table.locs ch ⟨c + d.coord, some Layer.Character⟩⟩ ch =
        some (c + d.coord)) := by
  have hc : w.spatial_table.coord_of ch = some c := by
    rw [SpatialTable.coord_of, hloc]
    rfl
  refine ⟨?_, ?_, ?_, ?_, ?_, ?_⟩
  · intro hv
    simp [World.maybe_move_character, hc, hv]
  · intro occ hv hocc hsame
    have hchar : (w.spatial_table.layers_at_checked (c + d.coord)).character = some occ := hocc
    simp [World.maybe_move_character, hc, hv, hchar, hsame]
  · intro occ cur mx hv hocc hdiff hhp hcur
    have hchar : (w.spatial_table.layers_at_checked (c + d.coord)).character = some occ := hocc
    have hbne : ((alFind w.components.npc_type ch).isSome !=
        (alFind w.components.npc_type occ).isSome) = true := by
      simp [bne_iff_ne]
      exact hdiff
    have hdmg := @character_damage_nonlethal w occ 1 cur mx hhp (by omega)
    cases hn : alFind w.components.npc_type ch with
    | some n =>
      have hn2 : alFind w.components.npc_type occ = none := by
        cases h2 : alFind w.components.npc_type occ with
        | none => rfl
        | some x =>
          rw [hn, h2] at hdiff
          simp at hdiff
      refine ⟨n, Or.inl rfl, ?_, write_combat_log_length _ _ _ _⟩
      simp [World.maybe_move_character, hc, hv, hchar, hbne,
        World.character_bump_attack, hdmg, hn, hn2]
    | none =>
      cases hn2 : alFind w.components.npc_type occ with
      | none =>
        rw [hn, hn2] at hdiff
        exact absurd rfl hdiff
      | some n2 =>
        refine ⟨n2, Or.inr rfl, ?_, write_combat_log_length _ _ _ _⟩
        simp [World.maybe_move_character, hc, hv, hchar, hbne,
          World.character_bump_attack, hdmg, hn, hn2]
  · intro occ mx hv hocc hdiff hhp hok htile
    have hchar : (w.spatial_table.layers_at_checked (c + d.coord)).character = some occ := hocc
    have hbne : ((alFind w.components.npc_type ch).isSome !=
        (alFind w.components.npc_type occ).isSome) = true := by
      simp [bne_iff_ne]
      exact hdiff
    have hvloc : alFind w.spatial_table.locs occ = some ⟨c + d.coord, some Layer.Character⟩ := by
      rcases occupant_eq_some hocc with ⟨loc', hmem, hcoord, hlayer⟩
      have := alFind_eq_of_mem hok.1 hmem
      rw [this]
      have : loc' = ⟨c + d.coord, some Layer.Character⟩ := by
        obtain ⟨lc, ll⟩ := loc'
        simp only at hcoord hlayer
        rw [hcoord, hlayer]
      rw [this]
    rcases @character_damage_lethal w occ 1 1 mx (c + d.coord) hok hhp (by omega) (by omega)
      hvloc htile with ⟨w', hdmg, hliving, _, _, _⟩
    cases hn : alFind w.components.npc_type ch with
    | some n =>
      have hn2 : alFind w.components.npc_type occ = none := by
        cases h2 : alFind w.components.npc_type occ with
        | none => rfl
        | some x =>
          rw [hn, h2] at hdiff
          simp at hdiff
      refine ⟨n, w', Or.inl rfl, ?_, hliving⟩
      simp [World.maybe_move_character, hc, hv, hchar, hbne,
        World.character_bump_attack, hdmg, hn, hn2]
    | none =>
      cases hn2 : alFind w.components.npc_type occ with
      | none =>
        rw [hn, hn2] at hdiff
        exact absurd rfl hdiff
      | some n2 =>
        refine ⟨n2, w', Or.inr rfl, ?_, hliving⟩
        simp [World.maybe_move_character, hc, hv, hchar, hbne,
          World.character_bump_attack, hdmg, hn, hn2]
  · intro feat hv hocc hfeat
    have hchar : (w.spatial_table.layers_at_checked (c + d.coord)).character = none := hocc
    have hfeat2 : (w.spatial_table.layers_at_checked (c + d.coord)).feature = some feat := hfeat
    simp [World.maybe_move_character, hc, hv, hchar, hfeat2]
  · intro hv hocc hfeat
    have hchar : (w.spatial_table.layers_at_checked (c + d.coord)).character = none := hocc
    have hfeat2 : (w.spatial_table.layers_at_checked (c + d.coord)).feature = none := hfeat
    have hupd : w.spatial_table.update ch ⟨c + d.coord, some Layer.Character⟩ =
        .ok ⟨w.spatial_table.grid_size,
          alInsert w.spatial_table.locs ch ⟨c + d.coord, some Layer.Character⟩⟩ := by
      rw [SpatialTable.update]
      simp [hocc]
    have huc : w.spatial_table.update_coord ch (c + d.coord) =
        some (w.spatial_table.update ch ⟨c + d.coord, some Layer.Character⟩) := by
      rw [SpatialTable.update_coord, hloc]
      rfl
    constructor
    · simp [World.maybe_move_character, hc, hv, hchar, hfeat2, huc, hupd]
    · rw [SpatialTable.coord_of, alFind_insert_self]
      rfl

theorem maybe_move_character_cases_witness :
    moveWorld.maybe_move_character 0 CardinalDirection.west [] = some (moveWorld, []) ∧
    moveWorld.maybe_move_character 1 CardinalDirection.south [] = some (moveWorld, []) ∧
    (∃ n, (alFind moveWorld.components.npc_type 0 = some n ∨
        alFind moveWorld.components.npc_type 1 = some n) ∧
      moveWorld.maybe_move_character 0 CardinalDirection.east [] = some
        ({ moveWorld with components := { moveWorld.components with
            hit_points := alInsert moveWorld.components.hit_points 1 ⟨2 - 1, 2⟩ } },
          write_combat_log_messages (alFind moveWorld.components.npc_type 0).isNone false n []) ∧
      (write_combat_log_messages (alFind moveWorld.components.npc_type 0).isNone false n []).length =
        ([] : List LogMessage).length + 1) ∧
    (∃ n w', (alFind moveWorld.components.npc_type 0 = some n ∨
        alFind moveWorld.components.npc_type 2 = some n) ∧
      moveWorld.maybe_move_character 0 CardinalDirection.south [] = some
        (w', write_combat_log_messages (alFind moveWorld.components.npc_type 0).isNone true n []) ∧
      w'.is_living_character 2 = false) ∧
    moveWorld.maybe_move_character 1 CardinalDirection.east [] = some (moveWorld, []) ∧
    (moveWorld.maybe_move_character 4 CardinalDirection.east [] = some
      ({ moveWorld with spatial_table := ⟨moveWorld.spatial_table.grid_size,
          alInsert moveWorld.spatial_table.locs 4
            ⟨⟨1, 1⟩ + CardinalDirection.east.coord, some Layer.Character⟩⟩ }, []) ∧
      SpatialTable.coord_of ⟨moveWorld.spatial_table.grid_size,
          alInsert moveWorld.spatial_table.locs 4
            ⟨⟨1, 1⟩ + CardinalDirection.east.coord, some Layer.Character⟩⟩ 4 =
        some (⟨1, 1⟩ + CardinalDirection.east.coord)) :=
  ⟨(maybe_move_character_cases moveWorld 0 CardinalDirection.west [] ⟨0, 0⟩ rfl).1 (by decide),
   (maybe_move_character_cases moveWorld 1 CardinalDirection.south [] ⟨1, 0⟩ rfl).2.1 4
     (by decide) rfl rfl,
   (maybe_move_character_cases moveWorld 0 CardinalDirection.east [] ⟨0, 0⟩ rfl).2.2.1 1 2 2
     (by decide) rfl (by decide) rfl (by decide),
   (maybe_move_character_cases moveWorld 0 CardinalDirection.south [] ⟨0, 0⟩ rfl).2.2.2.1 2 2
     (by decide) rfl (by decide) rfl (SpatialTable.okB_ok (by decide))
     (Or.inr ⟨NpcType.Orc, rfl⟩),
   (maybe_move_character_cases moveWorld 1 CardinalDirection.east [] ⟨1, 0⟩ rfl).2.2.2.2.1 3
     (by decide) rfl rfl,
   (maybe_move_character_cases moveWorld 4 CardinalDirection.east [] ⟨1, 1⟩ rfl).2.2.2.2.2
     (by decide) rfl rfl⟩

/-! ### Frame lemmas for the projectile phases -/

theorem alFind_eq_none_iff {V : Type} {l : AL V} {k : Entity} :
    alFind l k = none ↔ ∀ q ∈ l, q.1 ≠ k := by
  rw [alFind, Option.map_eq_none', List.find?_eq_none]
  constructor
  · intro h q hq
    have := h q hq
    simpa using this
  · intro h q hq
    simpa using h q hq

theorem alFind_alErase_none {V : Type} {l : AL V} {k e : Entity}
    (h : alFind l e = none) : alFind (alErase l k) e = none := by
  by_cases he : e = k
  · subst he
    exact alFind_erase_self _ _
  · rw [alFind_erase_ne _ _ _ he]
    exact h

theorem alFind_map_val {V W : Type} (f : V → W) (l : AL V) (k : Entity) :
    alFind (l.map (fun p => (p.1, f p.2))) k = (alFind l k).map f := by
  induction l with
  | nil => rfl
  | cons p t ih =>
    rw [List.map_cons, alFind_cons, alFind_cons]
    by_cases hp : p.1 = k
    · simp [hp]
    · simp [hp, ih]

theorem update_ok_locs {st st' : SpatialTable} {e : Entity} {loc : Location}
    (h : st.update e loc = .ok st') :
    st' = ⟨st.grid_size, alInsert st.locs e loc⟩ := by
  rw [SpatialTable.update] at h
  split at h
  · injection h with h
    exact h.symm
  · split at h
    · injection h with h
      exact h.symm
    · split at h
      · injection h with h
        exact h.symm
      · cases h

theorem update_error_occupant {st : SpatialTable} {e occ : Entity} {loc : Location}
    (h : st.update e loc = .error occ) :
    ∃ l0, loc.layer = some l0 ∧ st.occupant loc.coord l0 = some occ ∧ occ ≠ e := by
  rw [SpatialTable.update] at h
  split at h
  · cases h
  · rename_i l0 hl0
    split at h
    · cases h
    · rename_i e2 hocc
      split at h
      · cases h
      · rename_i hne
        injection h with h
        subst h
        exact ⟨l0, hl0, hocc, hne⟩

theorem character_die_shape {w w' : World} {v : Entity}
    (hdie : w.character_die v = some w') :
    ∃ vloc : Location, alFind w.spatial_table.locs v = some vloc ∧
      ((∃ st, w.spatial_table.update v ⟨vloc.coord, some Layer.Object⟩ = .ok st ∧
        w'.spatial_table = st ∧ w'.components.trajectory = w.components.trajectory ∧
        w'.components.hit_points = w.components.hit_points ∧
        w'.components.npc_type = w.components.npc_type) ∨
      (∃ occ st2, w.spatial_table.update v ⟨vloc.coord, some Layer.Object⟩ = .error occ ∧
        SpatialTable.update ⟨w.spatial_table.grid_size, alErase w.spatial_table.locs occ⟩ v
          ⟨vloc.coord, some Layer.Object⟩ = .ok st2 ∧
        w'.spatial_table = st2 ∧
        w'.components.trajectory = alErase w.components.trajectory occ ∧
        w'.components.hit_points = alErase w.components.hit_points occ ∧
        w'.components.npc_type = alErase w.components.npc_type occ)) := by
  simp only [World.character_die, World.remove_entity, Components.remove_entity,
    SpatialTable.remove] at hdie
  split at hdie
  · cases hdie
  · rename_i w3 hw3
    have hshape : ∃ vloc : Location, alFind w.spatial_table.locs v = some vloc ∧
        ((∃ st, w.spatial_table.update v ⟨vloc.coord, some Layer.Object⟩ = .ok st ∧
          w3.spatial_table = st ∧ w3.components = w.components) ∨
        (∃ occ st2, w.spatial_table.update v ⟨vloc.coord, some Layer.Object⟩ = .error occ ∧
          SpatialTable.update ⟨w.spatial_table.grid_size, alErase w.spatial_table.locs occ⟩ v
            ⟨vloc.coord, some Layer.Object⟩ = .ok st2 ∧
          w3.spatial_table = st2 ∧
          w3.components.trajectory = alErase w.components.trajectory occ ∧
          w3.components.hit_points = alErase w.components.hit_points occ ∧
          w3.components.npc_type = alErase w.components.npc_type occ ∧
          w3.components.tile = alErase w.components.tile occ)) := by
      split at hw3
      · cases hw3
      · rename_i st hst
        rw [SpatialTable.update_layer] at hst
        cases hf : alFind w.spatial_table.locs v with
        | none =>
          rw [hf] at hst
          cases hst
        | some vloc =>
          rw [hf] at hst
          simp only [Option.map_some', Option.some.injEq] at hst
          simp only [Option.some.injEq] at hw3
          subst hw3
          exact ⟨vloc, rfl, Or.inl ⟨st, hst, rfl, rfl⟩⟩
      · rename_i occ hocc
        rw [SpatialTable.update_layer] at hocc
        cases hf : alFind w.spatial_table.locs v with
        | none =>
          rw [hf] at hocc
          cases hocc
        | some vloc =>
          rw [hf] at hocc
          simp only [Option.map_some', Option.some.injEq] at hocc
          obtain ⟨l0x, hl0x, hoccx, hvocc⟩ := update_error_occupant hocc
          split at hw3
          · rename_i st2 hst2
            rw [SpatialTable.update_layer] at hst2
            have hf2 : alFind (alErase w.spatial_table.locs occ) v = some vloc := by
              rw [alFind_erase_ne _ _ _ (Ne.symm hvocc)]
              exact hf
            rw [show (⟨w.entity_allocator,
                ⟨alErase w.components.tile occ, alErase w.components.npc_type occ,
                 alErase w.components.hit_points occ, alErase w.components.item occ,
                 alErase w.components.inventory occ, alErase w.components.trajectory occ,
                 alErase w.components.projectile occ⟩,
                ⟨w.spatial_table.grid_size, alErase w.spatial_table.locs occ⟩⟩ :
                World).spatial_table.locs = alErase w.spatial_table.locs occ from rfl] at hst2
            rw [hf2] at hst2
            simp only [Option.map_some', Option.some.injEq] at hst2
            simp only [Option.some.injEq] at hw3
            subst hw3
            exact ⟨vloc, rfl, Or.inr ⟨occ, st2, hocc, hst2, rfl, rfl, rfl, rfl, rfl⟩⟩
          · cases hw3
    rcases hshape with ⟨vloc, hvloc, hcase⟩
    refine ⟨vloc, hvloc, ?_⟩
    rcases hcase with ⟨st, hupd, hsp, hcomp⟩ | ⟨occ, st2, herr, hupd2, hsp, ht, hh, hn, htl⟩
    · left
      refine ⟨st, hupd, ?_⟩
      split at hdie
      · simp only [Option.some.injEq] at hdie
        subst hdie
        exact ⟨hsp, by rw [hcomp], by rw [hcomp], by rw [hcomp]⟩
      · simp only [Option.some.injEq] at hdie
        subst hdie
        exact ⟨hsp, by rw [hcomp], by rw [hcomp], by rw [hcomp]⟩
      · cases hdie
    · right
      refine ⟨occ, st2, herr, hupd2, ?_⟩
      split at hdie
      · simp only [Option.some.injEq] at hdie
        subst hdie
        exact ⟨hsp, ht, hh, hn⟩
      · simp only [Option.some.injEq] at hdie
        subst hdie
        exact ⟨hsp, ht, hh, hn⟩
      · cases hdie

theorem character_die_other {w w' : World} {v e : Entity} {eloc : Location}
    (hnodup : (alKeys w.spatial_table.locs).Nodup)
    (hve : v ≠ e)
    (heloc : alFind w.spatial_table.locs e = some eloc)
    (helayer : eloc.layer ≠ some Layer.Object)
    (hdie : w.character_die v = some w') :
    alFind w'.spatial_table.locs e = some eloc ∧
    alFind w'.components.trajectory e = alFind w.components.trajectory e ∧
    alFind w'.components.hit_points e = alFind w.components.hit_points e ∧
    alFind w'.components.npc_type e = alFind w.components.npc_type e := by
  rcases character_die_shape hdie with ⟨vloc, hvloc, hcase⟩
  rcases hcase with ⟨st, hupd, hsp, ht, hh, hn⟩ | ⟨occ, st2, herr, hupd2, hsp, ht, hh, hn⟩
  · have hlocs := update_ok_locs hupd
    refine ⟨?_, by rw [ht], by rw [hh], by rw [hn]⟩
    rw [hsp, hlocs]
    show alFind (alInsert w.spatial_table.locs v _) e = some eloc
    rw [alFind_insert_ne _ _ _ _ (Ne.symm hve)]
    exact heloc
  · rcases update_error_occupant herr with ⟨l0, hl0, hocc, hov⟩
    injection hl0 with hl0
    subst hl0
    have hoe : occ ≠ e := by
      intro he
      subst he
      rcases occupant_eq_some hocc with ⟨loc2, hmem2, hc2, hl2⟩
      have := alFind_eq_of_mem hnodup hmem2
      rw [heloc] at this
      injection this with this
      rw [← this] at hl2
      exact helayer hl2
    have hlocs := update_ok_locs hupd2
    refine ⟨?_, ?_, ?_, ?_⟩
    · rw [hsp, hlocs]
      show alFind (alInsert (alErase w.spatial_table.locs occ) v _) e = some eloc
      rw [alFind_insert_ne _ _ _ _ (Ne.symm hve), alFind_erase_ne _ _ _ (Ne.symm hoe)]
      exact heloc
    · rw [ht]
      exact alFind_erase_ne _ _ _ (Ne.symm hoe)
    · rw [hh]
      exact alFind_erase_ne _ _ _ (Ne.symm hoe)
    · rw [hn]
      exact alFind_erase_ne _ _ _ (Ne.symm hoe)

theorem character_damage_other {w : World} {v e : Entity} {d : Nat} {res : World × Bool}
    {eloc : Location}
    (hnodup : (alKeys w.spatial_table.locs).Nodup)
    (heloc : alFind w.spatial_table.locs e = some eloc)
    (helayer : eloc.layer ≠ some Layer.Object)
    (hehp : alFind w.components.hit_points e = none)
    (hd : w.character_damage v d = some res) :
    alFind res.1.spatial_table.locs e = some eloc ∧
    alFind res.1.components.trajectory e = alFind w.components.trajectory e ∧
    alFind res.1.components.hit_points e = none := by
  simp only [World.character_damage] at hd
  split at hd
  · simp only [Option.some.injEq] at hd
    subst hd
    exact ⟨heloc, rfl, hehp⟩
  · rename_i hp hhp
    have hve : v ≠ e := by
      intro h
      subst h
      rw [hhp] at hehp
      cases hehp
    have hefind : alFind (alInsert w.components.hit_points v ⟨hp.current - d, hp.max⟩) e = none := by
      rw [alFind_insert_ne _ _ _ _ (Ne.symm hve)]
      exact hehp
    split at hd
    · split at hd
      · cases hd
      · rename_i w2 hw2
        simp only [Option.some.injEq] at hd
        subst hd
        have h1 := @character_die_other
          ⟨w.entity_allocator,
            ⟨w.components.tile, w.components.npc_type,
              alInsert w.components.hit_points v ⟨hp.current - d, hp.max⟩,
              w.components.item, w.components.inventory, w.components.trajectory,
              w.components.projectile⟩,
            w.spatial_table⟩
          w2 v e eloc hnodup hve heloc helayer hw2
        exact ⟨h1.1, h1.2.1, by rw [h1.2.2.1]; exact hefind⟩
    · simp only [Option.some.injEq] at hd
      subst hd
      exact ⟨heloc, rfl, hefind⟩

theorem apply_fireball_hits_other :
    ∀ {hits : List Entity} {w : World} {log : List LogMessage} {res : World × List LogMessage}
      {e : Entity} {eloc : Location},
    w.Ok →
    alFind w.spatial_table.locs e = some eloc →
    eloc.layer ≠ some Layer.Object →
    alFind w.components.hit_points e = none →
    apply_fireball_hits w log hits = some res →
    alFind res.1.spatial_table.locs e = some eloc ∧
    alFind res.1.components.trajectory e = alFind w.components.trajectory e ∧
    alFind res.1.components.hit_points e = none := by
  intro hits
  induction hits with
  | nil =>
    intro w log res e eloc hok heloc helayer hehp ha
    rw [apply_fireball_hits] at ha
    simp only [Option.some.injEq] at ha
    subst ha
    exact ⟨heloc, rfl, hehp⟩
  | cons v rest ih =>
    intro w log res e eloc hok heloc helayer hehp ha
    rw [apply_fireball_hits] at ha
    cases hdm : w.character_damage v 2 with
    | none =>
      rw [hdm] at ha
      cases ha
    | some p =>
      obtain ⟨w1, died⟩ := p
      simp only [hdm] at ha
      have hfr := character_damage_other hok.1.1 heloc helayer hehp hdm
      have h1ok : w1.Ok := World.character_damage_Ok hok hdm
      have hrest := ih h1ok hfr.1 helayer hfr.2.2 ha
      exact ⟨hrest.1, by rw [hrest.2.1, hfr.2.1], hrest.2.2⟩

theorem foldl_remove_traj_none : ∀ (rem : List Entity) (w : World) {e : Entity},
    alFind w.components.trajectory e = none →
    alFind ((rem.foldl (fun wa e0 => wa.remove_entity e0) w)).components.trajectory e = none := by
  intro rem
  induction rem with
  | nil => intro w e h; exact h
  | cons r rest ih =>
    intro w e h
    exact ih _ (alFind_alErase_none h)

theorem foldl_remove_keep : ∀ (rem : List Entity) (w : World) {e : Entity}, e ∉ rem →
    alFind ((rem.foldl (fun wa e0 => wa.remove_entity e0) w)).components.trajectory e =
      alFind w.components.trajectory e ∧
    alFind ((rem.foldl (fun wa e0 => wa.remove_entity e0) w)).spatial_table.locs e =
      alFind w.spatial_table.locs e ∧
    alFind ((rem.foldl (fun wa e0 => wa.remove_entity e0) w)).components.hit_points e =
      alFind w.components.hit_points e := by
  intro rem
  induction rem with
  | nil => intro w e h; exact ⟨rfl, rfl, rfl⟩
  | cons r rest ih =>
    intro w e h
    have hne : e ≠ r := fun he => h (he ▸ List.mem_cons_self r rest)
    have hrest : e ∉ rest := fun he => h (List.mem_cons_of_mem r he)
    have := ih (w.remove_entity r) hrest
    rw [List.foldl_cons]
    refine ⟨?_, ?_, ?_⟩
    · rw [this.1]
      exact alFind_erase_ne _ _ _ hne
    · rw [this.2.1]
      exact alFind_erase_ne _ _ _ hne
    · rw [this.2.2]
      exact alFind_erase_ne _ _ _ hne

theorem foldl_remove_traj_in : ∀ (rem : List Entity) (w : World) {e : Entity}, e ∈ rem →
    alFind ((rem.foldl (fun wa e0 => wa.remove_entity e0) w)).components.trajectory e = none := by
  intro rem
  induction rem with
  | nil => intro w e h; simp at h
  | cons r rest ih =>
    intro w e h
    by_cases he : e = r
    · subst he
      exact foldl_remove_traj_none rest _ (alFind_erase_self _ _)
    · rcases List.mem_cons.mp h with h1 | h1
      · exact absurd h1 he
      · exact ih _ h1

theorem foldl_remove_traj_mem : ∀ (rem : List Entity) (w : World)
    {q : Entity × List CardinalDirection},
    q ∈ ((rem.foldl (fun wa e0 => wa.remove_entity e0) w)).components.trajectory →
    q ∈ w.components.trajectory ∧ q.1 ∉ rem := by
  intro rem
  induction rem with
  | nil => intro w q h; exact ⟨h, by simp⟩
  | cons r rest ih =>
    intro w q h
    rcases ih (w.remove_entity r) h with ⟨h1, h2⟩
    have h3 := mem_of_alErase h1
    have h4 := key_ne_of_mem_alErase h1
    refine ⟨h3, ?_⟩
    intro hmem
    rcases List.mem_cons.mp hmem with h5 | h5
    · exact h4 h5
    · exact h2 h5

theorem projectile_scan_trajs {proj : AL ProjectileType} :
    ∀ {st : SpatialTable} {entries : List (Entity × List CardinalDirection)}
      {st' : SpatialTable} {trajs : AL (List CardinalDirection)} {rem hits : List Entity},
    projectile_scan proj st entries = some (st', trajs, rem, hits) →
    trajs = entries.map (fun p => (p.1, p.2.tail)) := by
  intro st entries
  induction entries generalizing st with
  | nil =>
    intro st' trajs rem hits hs
    rw [projectile_scan] at hs
    simp only [Option.some.injEq, Prod.mk.injEq] at hs
    rw [← hs.2.1]
    rfl
  | cons p rest ih =>
    intro st' trajs rem hits hs
    obtain ⟨e, t⟩ := p
    simp only [projectile_scan] at hs
    split at hs
    · split at hs
      · cases hs
      · rename_i st2 trajs2 rem2 hits2 hq
        simp only [Option.some.injEq, Prod.mk.injEq] at hs
        rw [← hs.2.1, ih hq]
        rfl
    · rename_i d t'
      split at hs
      · cases hs
      · rename_i c hc
        split at hs
        · cases hs
        · rename_i st2 trajs2 rem2 hits2 hq
          simp only [Option.some.injEq, Prod.mk.injEq] at hs
          rw [← hs.2.1, ih hq]
          rfl

theorem projectile_scan_exhausted {proj : AL ProjectileType} :
    ∀ {st : SpatialTable} {entries : List (Entity × List CardinalDirection)}
      {st' : SpatialTable} {trajs : AL (List CardinalDirection)} {rem hits : List Entity},
    projectile_scan proj st entries = some (st', trajs, rem, hits) →
    ∀ e : Entity, (e, ([] : List CardinalDirection)) ∈ entries → e ∈ rem := by
  intro st entries
  induction entries generalizing st with
  | nil =>
    intro st' trajs rem hits hs e hmem
    simp at hmem
  | cons p rest ih =>
    intro st' trajs rem hits hs e hmem
    obtain ⟨e0, t0⟩ := p
    simp only [projectile_scan] at hs
    split at hs
    · split at hs
      · cases hs
      · rename_i st2 trajs2 rem2 hits2 hq
        simp only [Option.some.injEq, Prod.mk.injEq] at hs
        rw [← hs.2.2.1]
        rcases List.mem_cons.mp hmem with h1 | h1
        · injection h1 with h1a h1b
          exact h1a ▸ List.mem_cons_self _ _
        · exact List.mem_cons_of_mem _ (ih hq e h1)
    · rename_i d t'
      split at hs
      · cases hs
      · rename_i c hc
        split at hs
        · cases hs
        · rename_i st2 trajs2 rem2 hits2 hq
          simp only [Option.some.injEq, Prod.mk.injEq] at hs
          rw [← hs.2.2.1]
          rcases List.mem_cons.mp hmem with h1 | h1
          · injection h1 with h1a h1b
            cases h1b
          · have := ih hq e h1
            split
            · exact List.mem_cons_of_mem _ this
            · exact this

theorem projectile_scan_locs_proj {proj : AL ProjectileType} :
    ∀ {st : SpatialTable} {entries : List (Entity × List CardinalDirection)}
      {st' : SpatialTable} {trajs : AL (List CardinalDirection)} {rem hits : List Entity},
    projectile_scan proj st entries = some (st', trajs, rem, hits) →
    ∀ {e : Entity} {c0 : Coord}, alFind st.locs e = some ⟨c0, some Layer.Projectile⟩ →
    ∃ c1, alFind st'.locs e = some ⟨c1, some Layer.Projectile⟩ := by
  intro st entries
  induction entries generalizing st with
  | nil =>
    intro st' trajs rem hits hs e c0 hf
    rw [projectile_scan] at hs
    simp only [Option.some.injEq, Prod.mk.injEq] at hs
    exact ⟨c0, hs.1 ▸ hf⟩
  | cons p rest ih =>
    intro st' trajs rem hits hs e c0 hf
    obtain ⟨e0, t0⟩ := p
    simp only [projectile_scan] at hs
    split at hs
    · split at hs
      · cases hs
      · rename_i st2 trajs2 rem2 hits2 hq
        simp only [Option.some.injEq, Prod.mk.injEq] at hs
        rcases ih hq hf with ⟨c1, hc1⟩
        exact ⟨c1, hs.1 ▸ hc1⟩
    · rename_i d t'
      split at hs
      · cases hs
      · rename_i c hc
        have hstep : ∃ c2, alFind (match st.update_coord e0 (c + d.coord) with
            | some (.ok stn) => stn
            | _ => st).locs e = some ⟨c2, some Layer.Projectile⟩ := by
          cases hu : st.update_coord e0 (c + d.coord) with
          | none => exact ⟨c0, hf⟩
          | some r =>
            cases r with
            | error e2 => exact ⟨c0, hf⟩
            | ok stn =>
              rw [SpatialTable.update_coord] at hu
              cases hf0 : alFind st.locs e0 with
              | none =>
                rw [hf0] at hu
                cases hu
              | some loc0 =>
                rw [hf0] at hu
                simp only [Option.map_some', Option.some.injEq] at hu
                have hlocs := update_ok_locs hu
                rw [hlocs]
                by_cases he : e0 = e
                · subst he
                  rw [hf0] at hf
                  injection hf with hf
                  refine ⟨c + d.coord, ?_⟩
                  show alFind (alInsert st.locs e0 ⟨c + d.coord, loc0.layer⟩) e0 = _
                  rw [alFind_insert_self, hf]
                · refine ⟨c0, ?_⟩
                  show alFind (alInsert st.locs e0 ⟨c + d.coord, loc0.layer⟩) e = _
                  rw [alFind_insert_ne _ _ _ _ (Ne.symm he)]
                  exact hf
        rcases hstep with ⟨c2, hc2⟩
        split at hs
        · cases hs
        · rename_i st2 trajs2 rem2 hits2 hq
          simp only [Option.some.injEq, Prod.mk.injEq] at hs
          rcases ih hq hc2 with ⟨c3, hc3⟩
          exact ⟨c3, hs.1 ▸ hc3⟩

theorem character_damage_traj_shape {w : World} {v : Entity} {d : Nat} {res : World × Bool}
    (hd : w.character_damage v d = some res) :
    res.1.components.trajectory = w.components.trajectory ∨
    ∃ occ, res.1.components.trajectory = alErase w.components.trajectory occ := by
  simp only [World.character_damage] at hd
  split at hd
  · simp only [Option.some.injEq] at hd
    subst hd
    left
    rfl
  · rename_i hp hhp
    split at hd
    · split at hd
      · cases hd
      · rename_i w2 hw2
        simp only [Option.some.injEq] at hd
        subst hd
        rcases character_die_shape hw2 with ⟨vloc, _, hcase⟩
        rcases hcase with ⟨st, _, _, ht, _, _⟩ | ⟨occ, st2, _, _, _, ht, _, _⟩
        · left
          rw [ht]
        · right
          exact ⟨occ, by rw [ht]⟩
    · simp only [Option.some.injEq] at hd
      subst hd
      left
      rfl

theorem apply_fireball_hits_traj_none :
    ∀ {hits : List Entity} {w : World} {log : List LogMessage} {res : World × List LogMessage}
      {e : Entity},
    apply_fireball_hits w log hits = some res →
    alFind w.components.trajectory e = none →
    alFind res.1.components.trajectory e = none := by
  intro hits
  induction hits with
  | nil =>
    intro w log res e ha h
    rw [apply_fireball_hits] at ha
    simp only [Option.some.injEq] at ha
    subst ha
    exact h
  | cons v rest ih =>
    intro w log res e ha h
    rw [apply_fireball_hits] at ha
    cases hdm : w.character_damage v 2 with
    | none =>
      rw [hdm] at ha
      cases ha
    | some p =>
      obtain ⟨w1, died⟩ := p
      simp only [hdm] at ha
      refine ih ha ?_
      rcases character_damage_traj_shape hdm with hsh | ⟨occ, hsh⟩
      · rw [hsh]
        exact h
      · rw [hsh]
        exact alFind_alErase_none h
    
theorem apply_fireball_hits_traj_mem :
    ∀ {hits : List Entity} {w : World} {log : List LogMessage} {res : World × List LogMessage}
      {q : Entity × List CardinalDirection},
    apply_fireball_hits w log hits = some res →
    q ∈ res.1.components.trajectory → q ∈ w.components.trajectory := by
  intro hits
  induction hits with
  | nil =>
    intro w log res q ha h
    rw [apply_fireball_hits] at ha
    simp only [Option.some.injEq] at ha
    subst ha
    exact h
  | cons v rest ih =>
    intro w log res q ha h
    rw [apply_fireball_hits] at ha
    cases hdm : w.character_damage v 2 with
    | none =>
      rw [hdm] at ha
      cases ha
    | some p =>
      obtain ⟨w1, died⟩ := p
      simp only [hdm] at ha
      have := ih ha h
      rcases character_damage_traj_shape hdm with hsh | ⟨occ, hsh⟩
      · rw [hsh] at this
        exact this
      · rw [hsh] at this
        exact mem_of_alErase this

theorem move_projectiles_preserves {w : World} {log : List LogMessage}
    {res : World × List LogMessage}
    (hok : w.Ok)
    (hproj : ∀ p ∈ w.components.trajectory, ∃ c0 : Coord,
      alFind w.spatial_table.locs p.1 = some ⟨c0, some Layer.Projectile⟩)
    (hhp : ∀ p ∈ w.components.trajectory, alFind w.components.hit_points p.1 = none)
    (hm : w.move_projectiles log = some res) :
    res.1.Ok ∧
    (∀ p ∈ res.1.components.trajectory, ∃ c0 : Coord,
      alFind res.1.spatial_table.locs p.1 = some ⟨c0, some Layer.Projectile⟩) ∧
    (∀ p ∈ res.1.components.trajectory, alFind res.1.components.hit_points p.1 = none) := by
  refine ⟨World.move_projectiles_Ok hok hm, ?_⟩
  simp only [World.move_projectiles] at hm
  split at hm
  · cases hm
  · rename_i st2 trajs rem hits hq
    have hw1ok : World.Ok (⟨w.entity_allocator, ⟨w.components.tile, w.components.npc_type, w.components.hit_points, w.components.item, w.components.inventory, trajs, w.components.projectile⟩, st2⟩ : World) :=
      ⟨projectile_scan_Ok hok.1 hq, hok.2⟩
    have hw2ok := foldl_remove_entity_Ok rem _ hw1ok
    have htrajs := projectile_scan_trajs hq
    have key : ∀ p : Entity × List CardinalDirection, p ∈ res.1.components.trajectory →
        (∃ c0 : Coord, alFind res.1.spatial_table.locs p.1 = some ⟨c0, some Layer.Projectile⟩) ∧
        alFind res.1.components.hit_points p.1 = none := by
      intro p hp
      have h1 := apply_fireball_hits_traj_mem hm hp
      rcases foldl_remove_traj_mem rem _ h1 with ⟨h2, h3⟩
      rw [show (⟨w.entity_allocator, ⟨w.components.tile, w.components.npc_type, w.components.hit_points, w.components.item, w.components.inventory, trajs, w.components.projectile⟩, st2⟩ : World).components.trajectory = trajs from rfl, htrajs] at h2
      rcases List.mem_map.mp h2 with ⟨q, hq2, hq3⟩
      have hp1 : p.1 = q.1 := by rw [← hq3]
      rcases hproj q hq2 with ⟨c0, hc0⟩
      rcases projectile_scan_locs_proj hq hc0 with ⟨c1, hc1⟩
      have hkeep := foldl_remove_keep rem (⟨w.entity_allocator, ⟨w.components.tile, w.components.npc_type, w.components.hit_points, w.components.item, w.components.inventory, trajs, w.components.projectile⟩, st2⟩ : World) (hp1 ▸ h3)
      have hlocs2 : alFind (rem.foldl (fun wa e0 => wa.remove_entity e0) (⟨w.entity_allocator, ⟨w.components.tile, w.components.npc_type, w.components.hit_points, w.components.item, w.components.inventory, trajs, w.components.projectile⟩, st2⟩ : World)).spatial_table.locs p.1 = some ⟨c1, some Layer.Projectile⟩ := by
        rw [hp1, hkeep.2.1]
        exact hc1
      have hhp2 : alFind (rem.foldl (fun wa e0 => wa.remove_entity e0) (⟨w.entity_allocator, ⟨w.components.tile, w.components.npc_type, w.components.hit_points, w.components.item, w.components.inventory, trajs, w.components.projectile⟩, st2⟩ : World)).components.hit_points p.1 = none := by
        rw [hp1, hkeep.2.2]
        exact hhp q hq2
      have hoth := apply_fireball_hits_other hw2ok hlocs2 (by simp) hhp2 hm
      exact ⟨⟨c1, hoth.1⟩, hoth.2.2⟩
    exact ⟨fun p hp => (key p hp).1, fun p hp => (key p hp).2⟩

theorem move_projectiles_traj_step {w : World} {log : List LogMessage}
    {res : World × List LogMessage}
    (hok : w.Ok)
    (hproj : ∀ p ∈ w.components.trajectory, ∃ c0 : Coord,
      alFind w.spatial_table.locs p.1 = some ⟨c0, some Layer.Projectile⟩)
    (hhp : ∀ p ∈ w.components.trajectory, alFind w.components.hit_points p.1 = none)
    (hm : w.move_projectiles log = some res)
    {e : Entity} {t : List CardinalDirection}
    (hfind : alFind w.components.trajectory e = some t) :
    alFind res.1.components.trajectory e = none ∨
    (∃ d t', t = d :: t' ∧ alFind res.1.components.trajectory e = some t') := by
  simp only [World.move_projectiles] at hm
  split at hm
  · cases hm
  · rename_i st2 trajs rem hits hq
    have htrajs := projectile_scan_trajs hq
    by_cases hrem : e ∈ rem
    · left
      refine apply_fireball_hits_traj_none hm ?_
      exact foldl_remove_traj_in rem _ hrem
    · cases t with
      | nil =>
        exact absurd (projectile_scan_exhausted hq e (mem_of_alFind hfind)) hrem
      | cons d t' =>
        right
        refine ⟨d, t', rfl, ?_⟩
        have hw1ok : World.Ok (⟨w.entity_allocator, ⟨w.components.tile, w.components.npc_type, w.components.hit_points, w.components.item, w.components.inventory, trajs, w.components.projectile⟩, st2⟩ : World) :=
          ⟨projectile_scan_Ok hok.1 hq, hok.2⟩
        have hw2ok := foldl_remove_entity_Ok rem _ hw1ok
        have hkeep := @foldl_remove_keep rem (⟨w.entity_allocator, ⟨w.components.tile, w.components.npc_type, w.components.hit_points, w.components.item, w.components.inventory, trajs, w.components.projectile⟩, st2⟩ : World) e hrem
        have htfind : alFind trajs e = some t' := by
          rw [htrajs]
          have hmv := alFind_map_val List.tail w.components.trajectory e
          rw [hfind] at hmv
          exact hmv
        rcases hproj (e, d :: t') (mem_of_alFind hfind) with ⟨c0, hc0⟩
        rcases projectile_scan_locs_proj hq hc0 with ⟨c1, hc1⟩
        have hlocs2 : alFind (rem.foldl (fun wa e0 => wa.remove_entity e0) (⟨w.entity_allocator, ⟨w.components.tile, w.components.npc_type, w.components.hit_points, w.components.item, w.components.inventory, trajs, w.components.projectile⟩, st2⟩ : World)).spatial_table.locs e = some ⟨c1, some Layer.Projectile⟩ := by
          rw [hkeep.2.1]
          exact hc1
        have hhp2 : alFind (rem.foldl (fun wa e0 => wa.remove_entity e0) (⟨w.entity_allocator, ⟨w.components.tile, w.components.npc_type, w.components.hit_points, w.components.item, w.components.inventory, trajs, w.components.projectile⟩, st2⟩ : World)).components.hit_points e = none := by
          rw [hkeep.2.2]
          exact hhp (e, d :: t') (mem_of_alFind hfind)
        have hother := apply_fireball_hits_other hw2ok hlocs2 (by simp) hhp2 hm
        rw [hother.2.1, hkeep.1]
        exact htfind

theorem move_projectiles_traj_none_tick {w : World} {log : List LogMessage}
    {res : World × List LogMessage} {e : Entity}
    (hm : w.move_projectiles log = some res)
    (h : alFind w.components.trajectory e = none) :
    alFind res.1.components.trajectory e = none := by
  simp only [World.move_projectiles] at hm
  split at hm
  · cases hm
  · rename_i st2 trajs rem hits hq
    refine apply_fireball_hits_traj_none hm (foldl_remove_traj_none rem _ ?_)
    rw [show (⟨w.entity_allocator, ⟨w.components.tile, w.components.npc_type, w.components.hit_points, w.components.item, w.components.inventory, trajs, w.components.projectile⟩, st2⟩ : World).components.trajectory = trajs from rfl, projectile_scan_trajs hq]
    have hmv := alFind_map_val List.tail w.components.trajectory e
    rw [h] at hmv
    exact hmv

theorem spawn_projectile_shape {w w' : World} {a b : Coord} {pt : ProjectileType}
    (hs : w.spawn_projectile a b pt = some w') :
    w'.components.trajectory
      = alInsert w.components.trajectory w.entity_allocator (cardinalSteps (b - a)) ∧
    w'.components.hit_points = w.components.hit_points ∧
    w'.spatial_table.locs
      = alInsert w.spatial_table.locs w.entity_allocator ⟨a, some Layer.Projectile⟩ := by
  simp only [World.spawn_projectile] at hs
  split at hs
  · cases hs
  · rename_i st hst
    simp only [Option.some.injEq] at hs
    subst hs
    have hlocs := update_ok_locs hst
    subst hlocs
    exact ⟨rfl, rfl, rfl⟩

theorem cardinalSteps_length (d : Coord) :
    (cardinalSteps d).length = d.x.natAbs + d.y.natAbs := by
  simp [cardinalSteps]

theorem alFind_head {V : Type} (p : Entity × V) (t : AL V) :
    alFind (p :: t) p.1 = some p.2 := by
  rw [alFind_cons, if_pos rfl]

theorem ticks_traj_none : ∀ (n : Nat) {w : World} {log : List LogMessage}
    {res : World × List LogMessage} {e : Entity},
    World.ticks n w log = some res →
    alFind w.components.trajectory e = none →
    alFind res.1.components.trajectory e = none := by
  intro n
  induction n with
  | zero =>
    intro w log res e ht h
    simp only [World.ticks, Option.some.injEq] at ht
    subst ht
    exact h
  | succ n ih =>
    intro w log res e ht h
    simp only [World.ticks] at ht
    split at ht
    · cases ht
    · rename_i w' log' hm
      exact ih ht (move_projectiles_traj_none_tick hm h)

theorem ticks_preserves : ∀ (n : Nat) {w : World} {log : List LogMessage}
    {res : World × List LogMessage},
    w.Ok →
    (∀ p ∈ w.components.trajectory, ∃ c0 : Coord,
      alFind w.spatial_table.locs p.1 = some ⟨c0, some Layer.Projectile⟩) →
    (∀ p ∈ w.components.trajectory, alFind w.components.hit_points p.1 = none) →
    World.ticks n w log = some res →
    res.1.Ok := by
  intro n
  induction n with
  | zero =>
    intro w log res hok hproj hhp ht
    simp only [World.ticks, Option.some.injEq] at ht
    subst ht
    exact hok
  | succ n ih =>
    intro w log res hok hproj hhp ht
    simp only [World.ticks] at ht
    split at ht
    · cases ht
    · rename_i w' log' hm
      obtain ⟨hok', hproj', hhp'⟩ := move_projectiles_preserves hok hproj hhp hm
      exact ih hok' hproj' hhp' ht

theorem ticks_traj_gone : ∀ (n : Nat) {w : World} {log : List LogMessage}
    {res : World × List LogMessage} {e : Entity} {t : List CardinalDirection},
    w.Ok →
    (∀ p ∈ w.components.trajectory, ∃ c0 : Coord,
      alFind w.spatial_table.locs p.1 = some ⟨c0, some Layer.Projectile⟩) →
    (∀ p ∈ w.components.trajectory, alFind w.components.hit_points p.1 = none) →
    alFind w.components.trajectory e = some t →
    t.length < n →
    World.ticks n w log = some res →
    alFind res.1.components.trajectory e = none := by
  intro n
  induction n with
  | zero =>
    intro w log res e t _ _ _ _ hn _
    omega
  | succ n ih =>
    intro w log res e t hok hproj hhp hfind hn ht
    simp only [World.ticks] at ht
    split at ht
    · cases ht
    · rename_i w' log' hm
      rcases move_projectiles_traj_step hok hproj hhp hm hfind with hnone | ⟨d, t', heq, hfind'⟩
      · exact ticks_traj_none n ht hnone
      · obtain ⟨hok', hproj', hhp'⟩ := move_projectiles_preserves hok hproj hhp hm
        refine ih hok' hproj' hhp' hfind' ?_ ht
        subst heq
        simp only [List.length_cons] at hn
        omega

/-- C9: a projectile spawned with origin `o` and target `tg` is assigned the
trajectory produced by the step generator over `tg - o`, whose length is the
grid distance `|dx| + |dy|`; once more ticks than that have elapsed the
projectile's trajectory entry is gone (it was destroyed on exhaustion or on
impact with a wall or character along the way), and if it was the only
projectile in flight, `has_projectiles` no longer reports it. -/
theorem projectile_travel_spec {w w1 : World} {o tg : Coord} {pt : ProjectileType}
    (hok : w.Ok)
    (hproj : ∀ p ∈ w.components.trajectory, ∃ c0 : Coord,
      alFind w.spatial_table.locs p.1 = some ⟨c0, some Layer.Projectile⟩)
    (hhp : ∀ p ∈ w.components.trajectory, alFind w.components.hit_points p.1 = none)
    (hfresh : alFind w.components.trajectory w.entity_allocator = none)
    (hfreshhp : alFind w.components.hit_points w.entity_allocator = none)
    (hs : w.spawn_projectile o tg pt = some w1) :
    alFind w1.components.trajectory w.entity_allocator = some (cardinalSteps (tg - o)) ∧
    (cardinalSteps (tg - o)).length = (tg.x - o.x).natAbs + (tg.y - o.y).natAbs ∧
    (∀ n log res, (cardinalSteps (tg - o)).length < n →
      World.ticks n w1 log = some res →
      alFind res.1.components.trajectory w.entity_allocator = none) ∧
    (w.components.trajectory = [] →
      ∀ n log res, (cardinalSteps (tg - o)).length < n →
      World.ticks n w1 log = some res →
      res.1.has_projectiles = false) := by
  obtain ⟨htraj, hhpeq, hlocs⟩ := spawn_projectile_shape hs
  have h1 : alFind w1.components.trajectory w.entity_allocator
      = some (cardinalSteps (tg - o)) := by
    rw [htraj]
    exact alFind_insert_self _ _ _
  have hok1 : w1.Ok := World.spawn_projectile_Ok hok hs
  have hproj1 : ∀ p ∈ w1.components.trajectory, ∃ c0 : Coord,
      alFind w1.spatial_table.locs p.1 = some ⟨c0, some Layer.Projectile⟩ := by
    intro p hp
    rw [htraj] at hp
    rcases mem_alInsert hp with hmem | heq
    · have hne : p.1 ≠ w.entity_allocator := alFind_eq_none_iff.mp hfresh p hmem
      rcases hproj p hmem with ⟨c0, hc0⟩
      refine ⟨c0, ?_⟩
      rw [hlocs, alFind_insert_ne _ _ _ _ hne]
      exact hc0
    · subst heq
      refine ⟨o, ?_⟩
      rw [hlocs]
      exact alFind_insert_self _ _ _
  have hhp1 : ∀ p ∈ w1.components.trajectory,
      alFind w1.components.hit_points p.1 = none := by
    intro p hp
    rw [htraj] at hp
    rw [hhpeq]
    rcases mem_alInsert hp with hmem | heq
    · exact hhp p hmem
    · subst heq
      exact hfreshhp
  have hlen : (cardinalSteps (tg - o)).length = (tg.x - o.x).natAbs + (tg.y - o.y).natAbs := by
    rw [cardinalSteps_length]
    rfl
  refine ⟨h1, hlen, ?_, ?_⟩
  · intro n log res hn ht
    exact ticks_traj_gone n hok1 hproj1 hhp1 h1 hn ht
  · intro hempty n log res hn ht
    have htraj1 : w1.components.trajectory
        = [(w.entity_allocator, cardinalSteps (tg - o))] := by
      rw [htraj, hempty]
      rfl
    have hgone := ticks_traj_gone n hok1 hproj1 hhp1 h1 hn ht
    cases hres : res.1.components.trajectory with
    | nil => simp [World.has_projectiles, hres]
    | cons p tl =>
      exfalso
      have hfound : alFind res.1.components.trajectory p.1 = some p.2 := by
        rw [hres]
        exact alFind_head p tl
      by_cases hpe : p.1 = w.entity_allocator
      · rw [hpe, hgone] at hfound
        cases hfound
      · have hnone1 : alFind w1.components.trajectory p.1 = none := by
          rw [htraj1, alFind_cons, if_neg (fun h => hpe h.symm)]
          rfl
        have hnone2 := ticks_traj_none n ht hnone1
        rw [hnone2] at hfound
        cases hfound

theorem projectile_travel_spec_witness :
    (World.new ⟨5, 5⟩).spawn_projectile ⟨0, 0⟩ ⟨2, 0⟩ ProjectileType.Fireball = some projDemo ∧
    alFind projDemo.components.trajectory (World.new ⟨5, 5⟩).entity_allocator
      = some (cardinalSteps ((⟨2, 0⟩ : Coord) - ⟨0, 0⟩)) ∧
    (cardinalSteps ((⟨2, 0⟩ : Coord) - ⟨0, 0⟩)).length = 2 ∧
    World.ticks 3 projDemo [] = some projDemoRes ∧
    alFind projDemoRes.1.components.trajectory (World.new ⟨5, 5⟩).entity_allocator = none ∧
    projDemoRes.1.has_projectiles = false := by
  have hspawn : (World.new ⟨5, 5⟩).spawn_projectile ⟨0, 0⟩ ⟨2, 0⟩ ProjectileType.Fireball
      = some projDemo := by decide
  have hticks : World.ticks 3 projDemo [] = some projDemoRes := by decide
  have h := @projectile_travel_spec (World.new ⟨5, 5⟩) projDemo ⟨0, 0⟩ ⟨2, 0⟩
    ProjectileType.Fireball (World.new_Ok ⟨5, 5⟩)
    (by intro p hp; simp [World.new, Components.empty] at hp)
    (by intro p hp; simp [World.new, Components.empty] at hp)
    (by decide) (by decide) hspawn
  exact ⟨hspawn, h.1, by decide, hticks,
    h.2.2.1 3 [] projDemoRes (by decide) hticks,
    h.2.2.2 (by decide) 3 [] projDemoRes (by decide) hticks⟩

theorem projectile_scan_rem_sub {proj : AL ProjectileType} :
    ∀ {st : SpatialTable} {entries : List (Entity × List CardinalDirection)}
      {st' : SpatialTable} {trajs : AL (List CardinalDirection)} {rem hits : List Entity},
    projectile_scan proj st entries = some (st', trajs, rem, hits) →
    ∀ e ∈ rem, e ∈ alKeys entries := by
  intro st entries
  induction entries generalizing st with
  | nil =>
    intro st' trajs rem hits hs e he
    rw [projectile_scan] at hs
    simp only [Option.some.injEq, Prod.mk.injEq] at hs
    rw [← hs.2.2.1] at he
    simp at he
  | cons p rest ih =>
    intro st' trajs rem hits hs e he
    obtain ⟨e0, t0⟩ := p
    simp only [projectile_scan] at hs
    split at hs
    · split at hs
      · cases hs
      · rename_i st2 trajs2 rem2 hits2 hq
        simp only [Option.some.injEq, Prod.mk.injEq] at hs
        rw [← hs.2.2.1] at he
        rcases List.mem_cons.mp he with h1 | h1
        · subst h1
          simp [alKeys]
        · have := ih hq e h1
          simp only [alKeys, List.map_cons]
          exact List.mem_cons_of_mem _ this
    · rename_i d t'
      split at hs
      · cases hs
      · rename_i c hc
        split at hs
        · cases hs
        · rename_i st2 trajs2 rem2 hits2 hq
          simp only [Option.some.injEq, Prod.mk.injEq] at hs
          rw [← hs.2.2.1] at he
          have hsub : e ∈ rem2 → e ∈ alKeys ((e0, d :: t') :: rest) := by
            intro h1
            have := ih hq e h1
            simp only [alKeys, List.map_cons]
            exact List.mem_cons_of_mem _ this
          split at he
          · rcases List.mem_cons.mp he with h1 | h1
            · subst h1
              simp [alKeys]
            · exact hsub h1
          · exact hsub he

theorem projectile_scan_locs_other {proj : AL ProjectileType} :
    ∀ {st : SpatialTable} {entries : List (Entity × List CardinalDirection)}
      {st' : SpatialTable} {trajs : AL (List CardinalDirection)} {rem hits : List Entity},
    projectile_scan proj st entries = some (st', trajs, rem, hits) →
    ∀ {k : Entity}, k ∉ alKeys entries → alFind st'.locs k = alFind st.locs k := by
  intro st entries
  induction entries generalizing st with
  | nil =>
    intro st' trajs rem hits hs k _
    rw [projectile_scan] at hs
    simp only [Option.some.injEq, Prod.mk.injEq] at hs
    rw [hs.1]
  | cons p rest ih =>
    intro st' trajs rem hits hs k hk
    obtain ⟨e0, t0⟩ := p
    have hk0 : k ≠ e0 ∧ k ∉ alKeys rest := by
      simp only [alKeys, List.map_cons, List.mem_cons] at hk
      push_neg at hk
      exact ⟨hk.1, fun h => hk.2 (by simpa [alKeys] using h)⟩
    simp only [projectile_scan] at hs
    split at hs
    · split at hs
      · cases hs
      · rename_i st2 trajs2 rem2 hits2 hq
        simp only [Option.some.injEq, Prod.mk.injEq] at hs
        rw [← hs.1]
        exact ih hq hk0.2
    · rename_i d t'
      split at hs
      · cases hs
      · rename_i c hc
        have hstep : alFind (match st.update_coord e0 (c + d.coord) with
            | some (.ok stn) => stn
            | _ => st).locs k = alFind st.locs k := by
          cases hu : st.update_coord e0 (c + d.coord) with
          | none => rfl
          | some r =>
            cases r with
            | error e2 => rfl
            | ok stn =>
              rw [SpatialTable.update_coord] at hu
              cases hf0 : alFind st.locs e0 with
              | none =>
                rw [hf0] at hu
                cases hu
              | some loc0 =>
                rw [hf0] at hu
                simp only [Option.map_some', Option.some.injEq] at hu
                have hlocs := update_ok_locs hu
                rw [hlocs]
                show alFind (alInsert st.locs e0 ⟨c + d.coord, loc0.layer⟩) k = _
                rw [alFind_insert_ne _ _ _ _ hk0.1]
        split at hs
        · cases hs
        · rename_i st2 trajs2 rem2 hits2 hq
          simp only [Option.some.injEq, Prod.mk.injEq] at hs
          rw [← hs.1]
          rw [ih hq hk0.2]
          exact hstep

/-- C5 (amended): `move_projectiles` is two-phase — a single scan over the
trajectories followed, only after the scan completes, by destruction of the
marked projectiles and application of the queued hits via the damage path.
For a projectile with a remaining step: its next coordinate is computed; a
Feature occupant there marks it for removal, a Character occupant there
marks it for removal and (being a projectile) queues a hit against that
character; but the projectile's coordinate is updated only when the
destination cell's Projectile layer is free (or held by itself) — a
projectile-projectile collision silently blocks the coordinate update,
leaving the projectile in place, rather than being ignored. -/
theorem move_projectiles_two_phase_amended {w : World} {log : List LogMessage}
    {res : World × List LogMessage} {e : Entity} {d : CardinalDirection}
    {t' : List CardinalDirection} {rest : List (Entity × List CardinalDirection)}
    {cur : Coord}
    (htraj : w.components.trajectory = (e, d :: t') :: rest)
    (hnotin : e ∉ alKeys rest)
    (hloc : alFind w.spatial_table.locs e = some ⟨cur, some Layer.Projectile⟩)
    (hm : w.move_projectiles log = some res) :
    ∃ st' trajs rem hits,
      projectile_scan w.components.projectile w.spatial_table w.components.trajectory
        = some (st', trajs, rem, hits) ∧
      apply_fireball_hits
        (rem.foldl (fun wa e0 => wa.remove_entity e0)
          (⟨w.entity_allocator, ⟨w.components.tile, w.components.npc_type, w.components.hit_points, w.components.item, w.components.inventory, trajs, w.components.projectile⟩, st'⟩ : World))
        log hits = some res ∧
      trajs = (e, t') :: rest.map (fun p => (p.1, p.2.tail)) ∧
      (e ∈ rem ↔
        ((w.spatial_table.layers_at_checked (cur + d.coord)).feature.isSome = true ∨
         (w.spatial_table.layers_at_checked (cur + d.coord)).character.isSome = true)) ∧
      (∀ c : Entity, (w.spatial_table.layers_at_checked (cur + d.coord)).feature = none →
        (w.spatial_table.layers_at_checked (cur + d.coord)).character = some c →
        (alFind w.components.projectile e).isSome = true → c ∈ hits) ∧
      alFind st'.locs e = some ⟨(if w.spatial_table.occupant (cur + d.coord) Layer.Projectile = none ∨ w.spatial_table.occupant (cur + d.coord) Layer.Projectile = some e then cur + d.coord else cur), some Layer.Projectile⟩ := by
  simp only [World.move_projectiles] at hm
  split at hm
  · cases hm
  · rename_i st' trajs rem hits hq
    have hq0 := hq
    rw [htraj] at hq
    simp only [projectile_scan] at hq
    split at hq
    · cases hq
    · rename_i c hc
      have hceq : c = cur := by
        rw [SpatialTable.coord_of, hloc] at hc
        simp only [Option.map_some', Option.some.injEq] at hc
        exact hc.symm
      subst c
      split at hq
      · cases hq
      · rename_i st2 trajs2 rem2 hits2 hq2
        simp only [Option.some.injEq, Prod.mk.injEq] at hq
        obtain ⟨h_st, h_trajs, h_rem, h_hits⟩ := hq
        refine ⟨st', trajs, rem, hits, hq0, hm, ?_, ?_, ?_, ?_⟩
        · rw [← h_trajs, projectile_scan_trajs hq2]
        · rw [← h_rem]
          by_cases hmark : ((w.spatial_table.layers_at_checked (cur + d.coord)).feature.isSome || (w.spatial_table.layers_at_checked (cur + d.coord)).character.isSome) = true
          · rw [if_pos hmark]
            simp only [Bool.or_eq_true] at hmark
            exact ⟨fun _ => hmark, fun _ => List.mem_cons_self _ _⟩
          · rw [if_neg hmark]
            simp only [Bool.or_eq_true] at hmark
            constructor
            · intro hin
              exact absurd (projectile_scan_rem_sub hq2 e hin) hnotin
            · intro hab
              exact absurd hab hmark
        · intro ch hfeat hchar hsome
          rw [← h_hits]
          simp [hfeat, hchar, hsome]
        · rw [← h_st, projectile_scan_locs_other hq2 hnotin]
          have hupd : w.spatial_table.update_coord e (cur + d.coord)
              = some (w.spatial_table.update e ⟨cur + d.coord, some Layer.Projectile⟩) := by
            rw [SpatialTable.update_coord, hloc]
            rfl
          rw [hupd]
          by_cases hocc : (w.spatial_table.occupant (cur + d.coord) Layer.Projectile = none ∨ w.spatial_table.occupant (cur + d.coord) Layer.Projectile = some e)
          · rw [if_pos hocc]
            have hupd2 : w.spatial_table.update e ⟨cur + d.coord, some Layer.Projectile⟩
                = .ok ⟨w.spatial_table.grid_size, alInsert w.spatial_table.locs e ⟨cur + d.coord, some Layer.Projectile⟩⟩ := by
              rcases hocc with h | h
              · simp only [SpatialTable.update, h]
              · simp [SpatialTable.update, h]
            rw [hupd2]
            show alFind (alInsert w.spatial_table.locs e ⟨cur + d.coord, some Layer.Projectile⟩) e = _
            rw [alFind_insert_self]
          · rw [if_neg hocc]
            push_neg at hocc
            obtain ⟨h1, h2⟩ := hocc
            cases ho : w.spatial_table.occupant (cur + d.coord) Layer.Projectile with
            | none => exact absurd ho h1
            | some e2 =>
              have hne : e2 ≠ e := fun h => h2 (h ▸ ho)
              have hupd2 : w.spatial_table.update e ⟨cur + d.coord, some Layer.Projectile⟩ = .error e2 := by
                simp only [SpatialTable.update, ho]
                rw [if_neg hne]
              rw [hupd2]
              exact hloc

/-- C5 counterexample: in `twoProjWorld`, entity 0 has a remaining eastward
step from (0,0); the Feature and Character layers of its next coordinate
(1,0) are both empty, yet after `move_projectiles` its coordinate is still
(0,0): the update was silently blocked by the other projectile (entity 1)
occupying (1,0)'s Projectile layer. This refutes "the projectile's
coordinate is updated regardless (projectile-projectile collisions are
ignored)". -/
theorem projectile_collision_blocks_coord_update :
    twoProjWorld.move_projectiles [] = some twoProjRes ∧
    alFind twoProjWorld.components.trajectory 0
      = some [CardinalDirection.east, CardinalDirection.east] ∧
    twoProjWorld.spatial_table.coord_of 0 = some ⟨0, 0⟩ ∧
    (twoProjWorld.spatial_table.layers_at_checked ⟨1, 0⟩).feature = none ∧
    (twoProjWorld.spatial_table.layers_at_checked ⟨1, 0⟩).character = none ∧
    alFind twoProjRes.1.components.trajectory 0 = some [CardinalDirection.east] ∧
    twoProjRes.1.entity_coord 0 = some ⟨0, 0⟩ ∧
    twoProjRes.1.entity_coord 0 ≠ some ⟨1, 0⟩ := by
  decide

theorem move_projectiles_two_phase_amended_witness :
    twoProjWorld.move_projectiles [] = some twoProjRes ∧
    (∃ st' trajs rem hits,
      projectile_scan twoProjWorld.components.projectile twoProjWorld.spatial_table
          twoProjWorld.components.trajectory
        = some (st', trajs, rem, hits) ∧
      apply_fireball_hits
        (rem.foldl (fun wa e0 => wa.remove_entity e0)
          (⟨twoProjWorld.entity_allocator, ⟨twoProjWorld.components.tile, twoProjWorld.components.npc_type, twoProjWorld.components.hit_points, twoProjWorld.components.item, twoProjWorld.components.inventory, trajs, twoProjWorld.components.projectile⟩, st'⟩ : World))
        [] hits = some twoProjRes ∧
      trajs = (0, [CardinalDirection.east])
        :: [(1, [CardinalDirection.east, CardinalDirection.east])].map (fun p => (p.1, p.2.tail)) ∧
      (0 ∈ rem ↔
        ((twoProjWorld.spatial_table.layers_at_checked ((⟨0, 0⟩ : Coord) + CardinalDirection.east.coord)).feature.isSome = true ∨
         (twoProjWorld.spatial_table.layers_at_checked ((⟨0, 0⟩ : Coord) + CardinalDirection.east.coord)).character.isSome = true)) ∧
      (∀ c : Entity, (twoProjWorld.spatial_table.layers_at_checked ((⟨0, 0⟩ : Coord) + CardinalDirection.east.coord)).feature = none →
        (twoProjWorld.spatial_table.layers_at_checked ((⟨0, 0⟩ : Coord) + CardinalDirection.east.coord)).character = some c →
        (alFind twoProjWorld.components.projectile 0).isSome = true → c ∈ hits) ∧
      alFind st'.locs 0 = some ⟨(if twoProjWorld.spatial_table.occupant ((⟨0, 0⟩ : Coord) + CardinalDirection.east.coord) Layer.Projectile = none ∨ twoProjWorld.spatial_table.occupant ((⟨0, 0⟩ : Coord) + CardinalDirection.east.coord) Layer.Projectile = some 0 then (⟨0, 0⟩ : Coord) + CardinalDirection.east.coord else ⟨0, 0⟩), some Layer.Projectile⟩) :=
  ⟨by decide,
    @move_projectiles_two_phase_amended twoProjWorld [] twoProjRes 0 CardinalDirection.east
      [CardinalDirection.east] [(1, [CardinalDirection.east, CardinalDirection.east])] ⟨0, 0⟩
      (by decide) (by decide) (by decide) (by decide)⟩
